import Mathlib

/-!
# ADIOS2 C examples: Cartesian windows and buffer fill

A shallow embedding of the three example programs

* `examples/writer.c` (explicit-window writer),
* `examples/writer_weak_scaling.c` (weak-scaling writer),
* `examples/reader_weak_scaling.c` (reader),

followed by theorems about the (start, count) windows they hand to the I/O
library and about the buffer the writers fill.

Conventions of the embedding:

* `int` is a 32 bit two's complement integer, `size_t` a 64 bit unsigned one.
  Values of type `int` are `Int`, values of type `size_t` are `Nat`.
* `int` arithmetic wraps modulo `2 ^ 32` (`wrapInt`), conversions between
  `int` and `size_t` reduce modulo the width of the target type.
* Division by zero and a store outside the allocated block or through a null
  pointer end a run with a `Fault`.
* The MPI and ADIOS2 calls are collaborators: their return codes and outputs
  are inputs of the embedding (`WriterEnv`, `CartEnv`).
-/

namespace Adios2C

/-! ## C integer arithmetic -/

/-- Largest value of the C type `int`. -/
def INT_MAX : Int := 2147483647

/-- Smallest value of the C type `int`. -/
def INT_MIN : Int := -2147483648

/-- Number of values of the C type `size_t`. -/
def SIZE_MOD : Nat := 18446744073709551616

/-- Size in bytes of one `int`, the `sizeof(int)` of the sources. -/
def SIZEOF_INT : Nat := 4

/-- Reduction of a mathematical integer to the `int` congruent to it
modulo `2 ^ 32`. -/
def wrapInt (v : Int) : Int := (v + 2147483648) % 4294967296 - 2147483648

/-- The C expression `a * b` on two `int`. -/
def intMul (a b : Int) : Int := wrapInt (a * b)

/-- The C expression `a + b` on two `int`. -/
def intAdd (a b : Int) : Int := wrapInt (a + b)

/-- Conversion of an `int` to `size_t`. -/
def toSizeT (v : Int) : Nat := (v % (SIZE_MOD : Int)).toNat

/-- Conversion of a `size_t` to `int`. -/
def sizeToInt (n : Nat) : Int := wrapInt (n : Int)

/-- The C expression `a * b` on two `size_t`. -/
def sizeMul (a b : Nat) : Nat := (a * b) % SIZE_MOD

/-- The C expression `a + b` on two `size_t`. -/
def sizeAdd (a b : Nat) : Nat := (a + b) % SIZE_MOD

/-- Runtime errors that end a run without a result. -/
inductive Fault where
  | divisionByZero
  | outOfBounds
  | nullPointer
  | outOfFuel
  deriving DecidableEq

deriving instance DecidableEq for Except

/-- The C expression `a / b` on two `size_t`; a zero divisor is undefined. -/
def sizeDiv (a b : Nat) : Except Fault Nat :=
  if b = 0 then .error .divisionByZero else .ok (a / b)

/-! ## The C library calls of the programs -/

/-- The `isspace` of the C locale. -/
def isspace (c : Char) : Bool := c.toNat == 32 || (9 ≤ c.toNat && c.toNat ≤ 13)

/-- The `isdigit` of the C library. -/
def isdigit (c : Char) : Bool := 48 ≤ c.toNat && c.toNat ≤ 57

/-- Value of the longest prefix of decimal digits, continuing from `acc`. -/
def digits : List Char → Nat → Nat
  | [], acc => acc
  | c :: cs, acc => if isdigit c then digits cs (10 * acc + (c.toNat - 48)) else acc

/-- The `atoi` of the C library: leading white space is skipped, an optional
sign and the longest run of decimal digits are converted, anything after is
ignored, and a string with no digits gives 0. A value outside the range of
`int` is reduced like every other `int` result. -/
def atoi (nptr : String) : Int :=
  match nptr.data.dropWhile isspace with
  | [] => 0
  | c :: cs =>
    if c = '-' then wrapInt (-(digits cs 0 : Int))
    else if c = '+' then wrapInt (digits cs 0 : Int)
    else wrapInt (digits (c :: cs) 0 : Int)

/-- A block of `int` obtained from `calloc`: `capacity` is the number of
elements (`none` for a null pointer), `data` the contents, and `log` the
indices stored to so far, oldest first. -/
structure Buffer where
  capacity : Option Nat
  data : Nat → Int
  log : List Nat

/-- The `calloc(nmemb, size)` of the C library: a zero-filled block, or a
null pointer when `nmemb * size` is not representable. -/
def calloc (nmemb size : Nat) : Buffer :=
  ⟨if nmemb * size < SIZE_MOD then some nmemb else none, fun _ => 0, []⟩

/-- The C statement `my_array[index] = value`. -/
def Buffer.store (my_array : Buffer) (index : Nat) (value : Int) : Except Fault Buffer :=
  match my_array.capacity with
  | none => .error .nullPointer
  | some n =>
    if index < n then
      .ok ⟨some n, fun k => if k = index then value else my_array.data k,
        my_array.log ++ [index]⟩
    else .error .outOfBounds

/-! ## Runs -/

/-- How a run of one of the programs ends. -/
inductive Ending where
  /-- The final `return 0` of `main` was reached. -/
  | finished
  /-- A message was printed and the process ended with `status`. -/
  | stopped (status : Int) (message : String)
  /-- A runtime error occurred. -/
  | fault (f : Fault)
  deriving DecidableEq

/-- The `static void myCheck(int error_return, const char *message)` of
`writer_weak_scaling.c` and `reader_weak_scaling.c`. -/
def myCheck (error_return : Int) (message : String) : Except Ending Unit :=
  if error_return ≠ 0 then
    .error (.stopped error_return ("Writer: ERROR: " ++ message))
  else .ok ()

/-- A runtime error inside an expression ends the run. -/
def liftFault {α : Type} : Except Fault α → Except Ending α
  | .ok a => .ok a
  | .error f => .error (.fault f)

/-- Return codes of the MPI and ADIOS2 calls checked by `writer.c`. -/
structure WriterEnv where
  mpiInit : Int
  commSize : Int
  commRank : Int
  setEngine : Int

/-- Return codes and outputs of the MPI and ADIOS2 calls made by
`writer_weak_scaling.c` and `reader_weak_scaling.c`. -/
structure CartEnv where
  mpiInit : Int
  worldRank : Int
  worldSize : Int
  commSplit : Int
  ioRank : Int
  ioSize : Int
  dimsCreate : Int
  cartCreate : Int
  cartCoords : Int
  setEngine : Int
  /-- Output `dims[0]` of `MPI_Dims_create`. -/
  dims0 : Int
  /-- Output `dims[1]` of `MPI_Dims_create`. -/
  dims1 : Int
  /-- Output `coords[0]` of `MPI_Cart_coords`. -/
  coords0 : Int
  /-- Output `coords[1]` of `MPI_Cart_coords`. -/
  coords1 : Int

/-- Every MPI and ADIOS2 call checked by `writer.c` reports success. -/
@[reducible] def WriterEnv.succeeds (env : WriterEnv) : Prop :=
  env.mpiInit = 0 ∧ env.commSize = 0 ∧ env.commRank = 0 ∧ env.setEngine = 0

/-- Every MPI and ADIOS2 call of the run reports success. -/
@[reducible] def CartEnv.succeeds (env : CartEnv) : Prop :=
  env.mpiInit = 0 ∧ env.worldRank = 0 ∧ env.worldSize = 0 ∧ env.commSplit = 0 ∧
  env.ioRank = 0 ∧ env.ioSize = 0 ∧ env.dimsCreate = 0 ∧ env.cartCreate = 0 ∧
  env.cartCoords = 0 ∧ env.setEngine = 0

/-- The grid of the run has factors of at least 1, each an `int`. -/
@[reducible] def CartEnv.gridOk (env : CartEnv) : Prop :=
  1 ≤ env.dims0 ∧ env.dims0 ≤ INT_MAX ∧ 1 ≤ env.dims1 ∧ env.dims1 ≤ INT_MAX

/-- The coordinate of the participant lies in the grid. -/
@[reducible] def CartEnv.coordsOk (env : CartEnv) : Prop :=
  0 ≤ env.coords0 ∧ env.coords0 < env.dims0 ∧ 0 ≤ env.coords1 ∧ env.coords1 < env.dims1

/-- The same run seen by the participant at grid coordinate `(c0, c1)`. -/
def CartEnv.atCoords (env : CartEnv) (c0 c1 : Int) : CartEnv :=
  ⟨env.mpiInit, env.worldRank, env.worldSize, env.commSplit, env.ioRank, env.ioSize,
    env.dimsCreate, env.cartCreate, env.cartCoords, env.setEngine, env.dims0, env.dims1,
    c0, c1⟩

/-- The arrays `shape`, `start` and `count` handed to the I/O library. -/
structure Variable where
  shape0 : Nat
  shape1 : Nat
  start0 : Nat
  start1 : Nat
  count0 : Nat
  count1 : Nat
  deriving DecidableEq

/-- The global element `(x, y)` lies in the (start, count) window of `v`. -/
@[reducible] def Variable.covers (v : Variable) (x y : Nat) : Prop :=
  v.start0 ≤ x ∧ x < v.start0 + v.count0 ∧ v.start1 ≤ y ∧ y < v.start1 + v.count1

/-- What a writer has done when it ends: the `my_array` variable it defined
(if it got that far), the buffer handed to `adios2_put` (if it got that far),
and how it ended. -/
structure Run where
  defined : Option Variable
  buffer : Option Buffer
  ending : Ending

/-! ## The fill loop shared by the two writers

Both writers fill `my_array` with the same pair of nested `for` loops; only the
expression stored differs, and is the parameter `element`. -/

/-- The inner loop `for (j = 0; j < ycount; ++j)` from the state `j`:
`index = i * ycount + j; my_array[index] = element`. -/
def fillRow (element : Int → Int → Int) (ycount i : Int) :
    Nat → Int → Buffer → Except Fault Buffer
  | 0, _, _ => .error .outOfFuel
  | fuel + 1, j, my_array =>
    if j < ycount then
      match my_array.store (toSizeT (intAdd (intMul i ycount) j)) (element i j) with
      | .ok my_array => fillRow element ycount i fuel (intAdd j 1) my_array
      | .error f => .error f
    else .ok my_array

/-- The outer loop `for (i = 0; i < xcount; ++i)` from the state `i`. -/
def fillRows (element : Int → Int → Int) (xcount ycount : Int) :
    Nat → Int → Buffer → Except Fault Buffer
  | 0, _, _ => .error .outOfFuel
  | fuel + 1, i, my_array =>
    if i < xcount then
      match fillRow element ycount i (ycount.toNat + 1) 0 my_array with
      | .ok my_array => fillRows element xcount ycount fuel (intAdd i 1) my_array
      | .error f => .error f
    else .ok my_array

/-- The statements from `calloc` to the final `return 0`, common to the two
writers, after the variable `v` has been defined. -/
def fillAndPut (v : Variable) (element : Int → Int → Int) (nelements xcount ycount : Int) :
    Run :=
  match fillRows element xcount ycount (xcount.toNat + 1) 0
      (calloc (toSizeT nelements) SIZEOF_INT) with
  | .ok my_array => ⟨some v, some my_array, .finished⟩
  | .error f => ⟨some v, none, .fault f⟩

/-! ## `writer.c` -/

namespace writer

/-- The integers parsed from the command line. -/
structure Args where
  xsize : Int
  xstart : Int
  xcount : Int
  ysize : Int
  ystart : Int
  ycount : Int
  nelements : Int

/-- The element expression `(xstart + i) * ysize + ystart + j`. -/
def element (a : Args) (i j : Int) : Int :=
  intAdd (intAdd (intMul (intAdd a.xstart i) a.ysize) a.ystart) j

/-- The `main` of `writer.c` up to the definition of `my_array`. -/
def setup (argv : List String) (env : WriterEnv) : Except Ending (Args × Variable) := do
  if env.mpiInit ≠ 0 then
    throw (.stopped 1 "Writer: ERROR: Unable to initialize MPI")
  if argv.length ≠ 7 then
    throw (.stopped 1 "Writer: ERROR: need size, start and count parameters")
  let xsize := atoi (argv.getD 1 "")
  let xstart := atoi (argv.getD 2 "")
  let xcount := atoi (argv.getD 3 "")
  let ysize := atoi (argv.getD 4 "")
  let ystart := atoi (argv.getD 5 "")
  let ycount := atoi (argv.getD 6 "")
  let nelements := intMul xsize ysize
  if env.commSize ≠ 0 then
    throw (.stopped 1 "Writer: ERROR: Unable to get MPI size")
  if env.commRank ≠ 0 then
    throw (.stopped 1 "Writer: ERROR: Unable to get MPI rank")
  let shape0 := toSizeT xsize
  let shape1 := toSizeT ysize
  let start0 := toSizeT xstart
  let start1 := toSizeT ystart
  let count0 := toSizeT xcount
  let count1 := toSizeT ycount
  if env.setEngine ≠ 0 then
    throw (.stopped 3 "Writer: ERROR: set_engine failed: ")
  return (⟨xsize, xstart, xcount, ysize, ystart, ycount, nelements⟩,
    ⟨shape0, shape1, start0, start1, count0, count1⟩)

/-- The `main` of `writer.c`; `argv` includes the program name. -/
def main (argv : List String) (env : WriterEnv) : Run :=
  match setup argv env with
  | .error e => ⟨none, none, e⟩
  | .ok (a, v) => fillAndPut v (element a) a.nelements a.xcount a.ycount

end writer

/-! ## `writer_weak_scaling.c` -/

namespace writer_weak_scaling

/-- The element expression `(start[0] + i) * shape[1] + start[1] + j`, computed
in `size_t` and converted to `int` by the assignment. -/
def element (v : Variable) (i j : Int) : Int :=
  sizeToInt (sizeAdd (sizeAdd (sizeMul (sizeAdd v.start0 (toSizeT i)) v.shape1) v.start1)
    (toSizeT j))

/-- The `main` of `writer_weak_scaling.c` up to the definition of `my_array`;
the result is `(xCount, yCount, nelements)` and the variable. -/
def setup (argv : List String) (env : CartEnv) :
    Except Ending ((Int × Int × Int) × Variable) := do
  myCheck env.mpiInit "Unable to initialize MPI"
  if argv.length ≠ 3 then
    throw (.stopped 1 "Writer: ERROR: need xCount and yCount parameters")
  let xCount := atoi (argv.getD 1 "")
  let yCount := atoi (argv.getD 2 "")
  let nelements := intMul xCount yCount
  myCheck env.worldRank "Unable to get wrank"
  myCheck env.worldSize "Unable to get wsize"
  myCheck env.commSplit " in I/O communicator"
  myCheck env.ioRank "Unable to get I/O Comm MPI rank"
  myCheck env.ioSize "Unable to get I/O Comm MPI size"
  myCheck env.dimsCreate "Unable to create Dims partition"
  myCheck env.cartCreate "Unable to create Cart Comm"
  myCheck env.cartCoords "Unable to get Cart coords"
  let shape0 := toSizeT (intMul env.dims0 xCount)
  let shape1 := toSizeT (intMul env.dims1 yCount)
  let start0 := toSizeT (intMul env.coords0 xCount)
  let start1 := toSizeT (intMul env.coords1 yCount)
  let count0 := toSizeT xCount
  let count1 := toSizeT yCount
  myCheck env.setEngine "adios2_set_engine failed:"
  return ((xCount, yCount, nelements), ⟨shape0, shape1, start0, start1, count0, count1⟩)

/-- The `main` of `writer_weak_scaling.c`; `argv` includes the program name. -/
def main (argv : List String) (env : CartEnv) : Run :=
  match setup argv env with
  | .error e => ⟨none, none, e⟩
  | .ok ((xCount, yCount, nelements), v) => fillAndPut v (element v) nelements xCount yCount

end writer_weak_scaling

/-! ## `reader_weak_scaling.c` -/

namespace reader_weak_scaling

/-- The `main` of `reader_weak_scaling.c` up to `adios2_set_selection`:
`my_array` is the shape `adios2_variable_shape` reports, or `none` when
`adios2_inquire_variable` returns `NULL`. The result holds the inquired
shape and the `start` and `count` passed to `adios2_set_selection`. The
receive buffer and its printing, which the selection does not depend on, are
left out. -/
def main (env : CartEnv) (my_array : Option (Nat × Nat)) : Except Ending Variable := do
  myCheck env.mpiInit "Unable to initialize MPI"
  myCheck env.worldRank "Unable to get wrank"
  myCheck env.worldSize "Unable to get wsize"
  myCheck env.commSplit " in I/O communicator"
  myCheck env.ioRank "Unable to get I/O Comm MPI rank"
  myCheck env.ioSize "Unable to get I/O Comm MPI size"
  myCheck env.setEngine "adios2_set_engine failed:"
  match my_array with
  | none =>
    myCheck 1 "variable my_array not found"
    throw (.fault .nullPointer)
  | some (shape0, shape1) =>
    myCheck env.dimsCreate "Unable to create Dims partition"
    myCheck env.cartCreate "Unable to create Cart Comm"
    myCheck env.cartCoords "Unable to get Cart coords"
    let xCount ← liftFault (sizeDiv shape0 (toSizeT env.dims0))
    let yCount ← liftFault (sizeDiv shape1 (toSizeT env.dims1))
    let start0 := sizeMul (toSizeT env.coords0) xCount
    let start1 := sizeMul (toSizeT env.coords1) yCount
    let count0 := xCount
    let count1 := yCount
    return ⟨shape0, shape1, start0, start1, count0, count1⟩

end reader_weak_scaling

/-! ## Loop invariant of the fill -/

/-- Invariant of the fill loops: the block has `c` elements, exactly the flat
positions below `m` have been stored to, once each and in increasing order, and
position `k` holds the element of row `k / Y` and column `k % Y`. -/
def Filled (element : Int → Int → Int) (Y c : Nat) (b : Buffer) (m : Nat) : Prop :=
  b.capacity = some c ∧ b.log = List.range m ∧
    ∀ k, k < m → b.data k = element ((k / Y : Nat) : Int) ((k % Y : Nat) : Int)

/-! ## Arithmetic lemmas -/

theorem wrapInt_of_fits (v : Int) (h0 : INT_MIN ≤ v) (h1 : v ≤ INT_MAX) : wrapInt v = v := by
  unfold INT_MIN at h0
  unfold INT_MAX at h1
  unfold wrapInt
  omega

theorem wrapInt_range (v : Int) : INT_MIN ≤ wrapInt v ∧ wrapInt v ≤ INT_MAX := by
  unfold INT_MIN INT_MAX wrapInt
  omega

theorem toSizeT_of_nonneg (v : Int) (h0 : 0 ≤ v) (h1 : v ≤ INT_MAX) :
    toSizeT v = v.toNat := by
  unfold INT_MAX at h1
  unfold toSizeT SIZE_MOD
  rw [Int.emod_eq_of_lt h0 (by omega)]

theorem toSizeT_natCast (n : Nat) (h : n < SIZE_MOD) : toSizeT (n : Int) = n := by
  unfold toSizeT
  rw [Int.emod_eq_of_lt (by omega) (by exact_mod_cast h)]
  simp

theorem atoi_range (nptr : String) : INT_MIN ≤ atoi nptr ∧ atoi nptr ≤ INT_MAX := by
  unfold atoi
  split
  · unfold INT_MIN INT_MAX; omega
  · split
    · exact wrapInt_range _
    · split
      · exact wrapInt_range _
      · exact wrapInt_range _

theorem toNat_mul_le (x y n : Int) (hx : 0 ≤ x) (hy : 0 ≤ y) (h : x * y ≤ n) :
    x.toNat * y.toNat ≤ n.toNat := by
  zify
  rw [Int.toNat_of_nonneg hx, Int.toNat_of_nonneg hy,
    Int.toNat_of_nonneg (le_trans (Int.mul_nonneg hx hy) h)]
  exact h

theorem myCheck_zero (message : String) : myCheck 0 message = .ok () := by
  simp [myCheck]

/-! ## The reader's window -/

/-- The reader run, once every collaborator call has succeeded. -/
theorem reader_main_of_succeeds (env : CartEnv) (shape0 shape1 : Nat)
    (hok : env.succeeds) :
    reader_weak_scaling.main env (some (shape0, shape1)) =
      (liftFault (sizeDiv shape0 (toSizeT env.dims0))).bind fun xCount =>
        (liftFault (sizeDiv shape1 (toSizeT env.dims1))).bind fun yCount =>
          .ok ⟨shape0, shape1, sizeMul (toSizeT env.coords0) xCount,
            sizeMul (toSizeT env.coords1) yCount, xCount, yCount⟩ := by
  obtain ⟨h1, h2, h3, h4, h5, h6, h7, h8, h9, h10⟩ := hok
  simp [reader_weak_scaling.main, h1, h2, h3, h4, h5, h6, h7, h8, h9, h10, myCheck_zero,
    bind, pure]
  rfl

theorem mul_div_lt_size (c d s : Nat) (hc : c < d) (hs : s < SIZE_MOD) :
    c * (s / d) < SIZE_MOD := by
  have h1 : c * (s / d) ≤ d * (s / d) := Nat.mul_le_mul_right _ (Nat.le_of_lt hc)
  have h2 : d * (s / d) ≤ s := Nat.mul_div_le s d
  omega

/-- The window the reader selects, in closed form. -/
theorem reader_main_ok (env : CartEnv) (shape0 shape1 : Nat)
    (hok : env.succeeds) (hgrid : env.gridOk) (hcoords : env.coordsOk)
    (hs0 : shape0 < SIZE_MOD) (hs1 : shape1 < SIZE_MOD) :
    reader_weak_scaling.main env (some (shape0, shape1)) =
      .ok ⟨shape0, shape1, env.coords0.toNat * (shape0 / env.dims0.toNat),
        env.coords1.toNat * (shape1 / env.dims1.toNat),
        shape0 / env.dims0.toNat, shape1 / env.dims1.toNat⟩ := by
  obtain ⟨hd0, hd0m, hd1, hd1m⟩ := hgrid
  obtain ⟨hc0, hc0d, hc1, hc1d⟩ := hcoords
  rw [reader_main_of_succeeds env shape0 shape1 hok]
  rw [toSizeT_of_nonneg env.dims0 (by omega) hd0m, toSizeT_of_nonneg env.dims1 (by omega) hd1m,
    toSizeT_of_nonneg env.coords0 hc0 (by omega), toSizeT_of_nonneg env.coords1 hc1 (by omega)]
  have e0 : env.dims0.toNat ≠ 0 := by omega
  have e1 : env.dims1.toNat ≠ 0 := by omega
  have l0 : env.coords0.toNat < env.dims0.toNat := by omega
  have l1 : env.coords1.toNat < env.dims1.toNat := by omega
  simp only [sizeDiv, e0, e1, if_false, liftFault, Except.bind, sizeMul]
  rw [Nat.mod_eq_of_lt (mul_div_lt_size _ _ _ l0 hs0),
    Nat.mod_eq_of_lt (mul_div_lt_size _ _ _ l1 hs1)]

/-- One dimension of the reader's coverage: the index `x` lies in the block of
some coordinate `c < d` exactly when it lies below `d * cnt`. -/
theorem cover_iff (d cnt x : Nat) :
    (∃ c, c < d ∧ c * cnt ≤ x ∧ x < c * cnt + cnt) ↔ x < d * cnt := by
  constructor
  · rintro ⟨c, hcd, _, hx⟩
    have h : (c + 1) * cnt ≤ d * cnt := Nat.mul_le_mul_right _ hcd
    rw [Nat.add_mul, Nat.one_mul] at h
    omega
  · intro hx
    have hcnt : 0 < cnt := by
      rcases Nat.eq_zero_or_pos cnt with h | h
      · simp [h] at hx
      · exact h
    refine ⟨x / cnt, (Nat.div_lt_iff_lt_mul hcnt).2 hx, Nat.div_mul_le_self x cnt,
      Nat.lt_div_mul_add hcnt⟩

/-- One dimension of disjointness: blocks of two distinct coordinates share no index. -/
theorem block_disjoint (c c' cnt t : Nat) (h : c ≠ c') :
    ¬ (c * cnt ≤ t ∧ t < c * cnt + cnt ∧ c' * cnt ≤ t ∧ t < c' * cnt + cnt) := by
  rintro ⟨h1, h2, h3, h4⟩
  rcases Nat.lt_or_gt_of_ne h with hlt | hlt
  · have hm : (c + 1) * cnt ≤ c' * cnt := Nat.mul_le_mul_right _ hlt
    rw [Nat.add_mul, Nat.one_mul] at hm
    omega
  · have hm : (c' + 1) * cnt ≤ c * cnt := Nat.mul_le_mul_right _ hlt
    rw [Nat.add_mul, Nat.one_mul] at hm
    omega

/-- One dimension of containment: the block of a coordinate `c < d` ends at or
before `d * cnt`. -/
theorem block_within (c d cnt : Nat) (h : c < d) : c * cnt + cnt ≤ d * cnt := by
  have hm : (c + 1) * cnt ≤ d * cnt := Nat.mul_le_mul_right _ h
  rw [Nat.add_mul, Nat.one_mul] at hm
  exact hm

theorem tdiv_toNat (s : Nat) (d : Int) (hd : 0 ≤ d) :
    Int.tdiv s d = ((s / d.toNat : Nat) : Int) := by
  rw [Int.tdiv_eq_ediv (Int.natCast_nonneg s) hd, Int.natCast_div, Int.toNat_of_nonneg hd]

theorem tmod_toNat (s : Nat) (d : Int) (hd : 0 ≤ d) :
    Int.tmod s d = ((s % d.toNat : Nat) : Int) := by
  rw [Int.tmod_eq_emod (Int.natCast_nonneg s) hd, Int.natCast_mod, Int.toNat_of_nonneg hd]

/-! ## The variable the writers define -/

theorem fillAndPut_defined (v : Variable) (element : Int → Int → Int)
    (nelements xcount ycount : Int) :
    (fillAndPut v element nelements xcount ycount).defined = some v := by
  unfold fillAndPut
  split <;> rfl

theorem fillAndPut_ending (v : Variable) (element : Int → Int → Int)
    (nelements xcount ycount : Int) (status : Int) (message : String) :
    (fillAndPut v element nelements xcount ycount).ending ≠ .stopped status message := by
  unfold fillAndPut
  split <;> intro h <;> cases h

/-- The explicit-window writer, once every collaborator call has succeeded. -/
theorem writer_setup_ok (p a1 a2 a3 a4 a5 a6 : String) (env : WriterEnv)
    (hok : env.succeeds) :
    writer.setup [p, a1, a2, a3, a4, a5, a6] env =
      .ok (⟨atoi a1, atoi a2, atoi a3, atoi a4, atoi a5, atoi a6, intMul (atoi a1) (atoi a4)⟩,
        ⟨toSizeT (atoi a1), toSizeT (atoi a4), toSizeT (atoi a2), toSizeT (atoi a5),
          toSizeT (atoi a3), toSizeT (atoi a6)⟩) := by
  obtain ⟨h1, h2, h3, h4⟩ := hok
  simp [writer.setup, h1, h2, h3, h4, bind, pure, Except.bind, Except.pure]

/-- The weak-scaling writer, once every collaborator call has succeeded. -/
theorem weak_setup_ok (p a1 a2 : String) (env : CartEnv) (hok : env.succeeds) :
    writer_weak_scaling.setup [p, a1, a2] env =
      .ok ((atoi a1, atoi a2, intMul (atoi a1) (atoi a2)),
        ⟨toSizeT (intMul env.dims0 (atoi a1)), toSizeT (intMul env.dims1 (atoi a2)),
          toSizeT (intMul env.coords0 (atoi a1)), toSizeT (intMul env.coords1 (atoi a2)),
          toSizeT (atoi a1), toSizeT (atoi a2)⟩) := by
  obtain ⟨h1, h2, h3, h4, h5, h6, h7, h8, h9, h10⟩ := hok
  simp [writer_weak_scaling.setup, h1, h2, h3, h4, h5, h6, h7, h8, h9, h10, myCheck_zero,
    bind, pure, Except.bind, Except.pure]

theorem writer_main_ok (p a1 a2 a3 a4 a5 a6 : String) (env : WriterEnv)
    (hok : env.succeeds) :
    writer.main [p, a1, a2, a3, a4, a5, a6] env =
      fillAndPut ⟨toSizeT (atoi a1), toSizeT (atoi a4), toSizeT (atoi a2), toSizeT (atoi a5),
          toSizeT (atoi a3), toSizeT (atoi a6)⟩
        (writer.element ⟨atoi a1, atoi a2, atoi a3, atoi a4, atoi a5, atoi a6,
          intMul (atoi a1) (atoi a4)⟩)
        (intMul (atoi a1) (atoi a4)) (atoi a3) (atoi a6) := by
  unfold writer.main
  rw [writer_setup_ok p a1 a2 a3 a4 a5 a6 env hok]

theorem weak_main_ok (p a1 a2 : String) (env : CartEnv) (hok : env.succeeds) :
    writer_weak_scaling.main [p, a1, a2] env =
      fillAndPut ⟨toSizeT (intMul env.dims0 (atoi a1)), toSizeT (intMul env.dims1 (atoi a2)),
          toSizeT (intMul env.coords0 (atoi a1)), toSizeT (intMul env.coords1 (atoi a2)),
          toSizeT (atoi a1), toSizeT (atoi a2)⟩
        (writer_weak_scaling.element
          ⟨toSizeT (intMul env.dims0 (atoi a1)), toSizeT (intMul env.dims1 (atoi a2)),
          toSizeT (intMul env.coords0 (atoi a1)), toSizeT (intMul env.coords1 (atoi a2)),
          toSizeT (atoi a1), toSizeT (atoi a2)⟩)
        (intMul (atoi a1) (atoi a2)) (atoi a1) (atoi a2) := by
  unfold writer_weak_scaling.main
  rw [weak_setup_ok p a1 a2 env hok]

/-- A product of non-negative `int` that fits is computed exactly and converts
to `size_t` unchanged. -/
theorem toSizeT_intMul (a b : Int) (ha : 0 ≤ a) (hb : 0 ≤ b) (h : a * b ≤ INT_MAX) :
    toSizeT (intMul a b) = a.toNat * b.toNat := by
  have hab : 0 ≤ a * b := Int.mul_nonneg ha hb
  unfold intMul
  rw [wrapInt_of_fits _ (by unfold INT_MIN; omega) h, toSizeT_of_nonneg _ hab h]
  zify
  rw [Int.toNat_of_nonneg hab, Int.toNat_of_nonneg ha, Int.toNat_of_nonneg hb]

/-- The variable the weak-scaling writer defines, in closed form. -/
theorem weak_main_defined (p a1 a2 : String) (env : CartEnv) (hok : env.succeeds)
    (hx : 0 ≤ atoi a1) (hy : 0 ≤ atoi a2)
    (hd0 : 0 ≤ env.dims0) (hd1 : 0 ≤ env.dims1)
    (hc0 : 0 ≤ env.coords0) (hc1 : 0 ≤ env.coords1)
    (hs0 : env.dims0 * atoi a1 ≤ INT_MAX) (hs1 : env.dims1 * atoi a2 ≤ INT_MAX)
    (ht0 : env.coords0 * atoi a1 ≤ INT_MAX) (ht1 : env.coords1 * atoi a2 ≤ INT_MAX) :
    (writer_weak_scaling.main [p, a1, a2] env).defined =
      some ⟨env.dims0.toNat * (atoi a1).toNat, env.dims1.toNat * (atoi a2).toNat,
        env.coords0.toNat * (atoi a1).toNat, env.coords1.toNat * (atoi a2).toNat,
        (atoi a1).toNat, (atoi a2).toNat⟩ := by
  rw [weak_main_ok p a1 a2 env hok, fillAndPut_defined,
    toSizeT_intMul _ _ hd0 hx hs0, toSizeT_intMul _ _ hd1 hy hs1,
    toSizeT_intMul _ _ hc0 hx ht0, toSizeT_intMul _ _ hc1 hy ht1,
    toSizeT_of_nonneg _ hx (atoi_range a1).2, toSizeT_of_nonneg _ hy (atoi_range a2).2]

/-! ## The fill loops -/

theorem flat_lt (X Y i j : Nat) (hi : i < X) (hj : j < Y) : i * Y + j < X * Y := by
  have h := block_within i X Y hi
  omega

theorem flat_div (Y i j : Nat) (hj : j < Y) : (i * Y + j) / Y = i := by
  rw [Nat.add_comm, Nat.add_mul_div_right _ _ (by omega), Nat.div_eq_of_lt hj, Nat.zero_add]

theorem flat_mod (Y i j : Nat) (hj : j < Y) : (i * Y + j) % Y = j := by
  rw [Nat.add_comm, Nat.add_mul_mod_self_right, Nat.mod_eq_of_lt hj]

/-- The flat index `i * ycount + j` is computed exactly when it fits the type `int`. -/
theorem index_exact (i Y j : Nat) (h : ((i * Y + j : Nat) : Int) ≤ INT_MAX) :
    toSizeT (intAdd (intMul (i : Int) (Y : Int)) (j : Int)) = i * Y + j := by
  have hm : ((i * Y : Nat) : Int) ≤ INT_MAX := by
    have : ((i * Y : Nat) : Int) ≤ ((i * Y + j : Nat) : Int) := by exact_mod_cast Nat.le_add_right _ _
    omega
  have e1 : intMul (i : Int) (Y : Int) = ((i * Y : Nat) : Int) := by
    unfold intMul
    rw [← Nat.cast_mul]
    exact wrapInt_of_fits _ (by unfold INT_MIN; omega) hm
  have e2 : intAdd ((i * Y : Nat) : Int) (j : Int) = ((i * Y + j : Nat) : Int) := by
    unfold intAdd
    rw [← Nat.cast_add]
    exact wrapInt_of_fits _ (by unfold INT_MIN; omega) h
  rw [e1, e2]
  apply toSizeT_natCast
  unfold INT_MAX at h
  unfold SIZE_MOD
  omega

theorem intAdd_one (j : Nat) (h : ((j + 1 : Nat) : Int) ≤ INT_MAX) :
    intAdd (j : Int) 1 = ((j + 1 : Nat) : Int) := by
  unfold intAdd
  rw [Nat.cast_add, Nat.cast_one]
  exact wrapInt_of_fits _ (by unfold INT_MIN; omega) (by exact_mod_cast h)

/-- One store keeps the invariant. -/
theorem store_filled (element : Int → Int → Int) (Y c : Nat) (b : Buffer) (i j : Nat)
    (hj : j < Y) (hlt : i * Y + j < c) (hb : Filled element Y c b (i * Y + j)) :
    ∃ b1, b.store (i * Y + j) (element (i : Int) (j : Int)) = .ok b1 ∧
      Filled element Y c b1 (i * Y + (j + 1)) := by
  obtain ⟨hcap, hlog, hdata⟩ := hb
  refine ⟨⟨some c, fun k => if k = i * Y + j then element (i : Int) (j : Int) else b.data k,
    b.log ++ [i * Y + j]⟩, ?_, rfl, ?_, ?_⟩
  · simp [Buffer.store, hcap, hlt]
  · rw [hlog, ← Nat.add_assoc, List.range_succ]
  · intro k hk
    by_cases hkm : k = i * Y + j
    · simp only [hkm, if_true, flat_div Y i j hj, flat_mod Y i j hj]
    · simp only [hkm, if_false]
      exact hdata k (by omega)

/-- The inner loop stores one full row. -/
theorem fillRow_ok (element : Int → Int → Int) (X Y c i : Nat) (hi : i < X)
    (hXY : X * Y ≤ c) (hc : (c : Int) ≤ INT_MAX) (hY : (Y : Int) ≤ INT_MAX) :
    ∀ (n j fuel : Nat) (b : Buffer), j + n = Y → n < fuel →
      Filled element Y c b (i * Y + j) →
      ∃ b1, fillRow element (Y : Int) (i : Int) fuel (j : Int) b = .ok b1 ∧
        Filled element Y c b1 (i * Y + Y) := by
  intro n
  induction n with
  | zero =>
    intro j fuel b hjn hfuel hb
    obtain ⟨f, rfl⟩ : ∃ f, fuel = f + 1 := ⟨fuel - 1, by omega⟩
    have hjY : j = Y := by omega
    subst hjY
    exact ⟨b, by simp [fillRow], hb⟩
  | succ n ih =>
    intro j fuel b hjn hfuel hb
    obtain ⟨f, rfl⟩ : ∃ f, fuel = f + 1 := ⟨fuel - 1, by omega⟩
    have hj : j < Y := by omega
    have hflat := flat_lt X Y i j hi hj
    have hfit : ((i * Y + j : Nat) : Int) ≤ INT_MAX := by
      have : ((i * Y + j : Nat) : Int) ≤ (c : Int) := by exact_mod_cast (by omega : i * Y + j ≤ c)
      omega
    obtain ⟨b1, hstore, hb1⟩ := store_filled element Y c b i j hj (by omega) hb
    obtain ⟨b2, hrun, hb2⟩ := ih (j + 1) f b1 (by omega) (by omega) hb1
    refine ⟨b2, ?_, hb2⟩
    have hcond : (j : Int) < (Y : Int) := by exact_mod_cast hj
    have hnext : intAdd (j : Int) 1 = ((j + 1 : Nat) : Int) :=
      intAdd_one j (by have : ((j + 1 : Nat) : Int) ≤ (Y : Int) := by exact_mod_cast hj
                       omega)
    rw [fillRow]
    simp only [hcond, if_true, index_exact i Y j hfit, hstore, hnext]
    exact hrun

/-- The outer loop stores every row. -/
theorem fillRows_ok (element : Int → Int → Int) (X Y c : Nat)
    (hXY : X * Y ≤ c) (hc : (c : Int) ≤ INT_MAX) (hX : (X : Int) ≤ INT_MAX)
    (hY : (Y : Int) ≤ INT_MAX) :
    ∀ (n i fuel : Nat) (b : Buffer), i + n = X → n < fuel →
      Filled element Y c b (i * Y) →
      ∃ b1, fillRows element (X : Int) (Y : Int) fuel (i : Int) b = .ok b1 ∧
        Filled element Y c b1 (X * Y) := by
  intro n
  induction n with
  | zero =>
    intro i fuel b hin hfuel hb
    obtain ⟨f, rfl⟩ : ∃ f, fuel = f + 1 := ⟨fuel - 1, by omega⟩
    have hiX : i = X := by omega
    subst hiX
    exact ⟨b, by simp [fillRows], hb⟩
  | succ n ih =>
    intro i fuel b hin hfuel hb
    obtain ⟨f, rfl⟩ : ∃ f, fuel = f + 1 := ⟨fuel - 1, by omega⟩
    have hi : i < X := by omega
    obtain ⟨b1, hrow, hb1⟩ := fillRow_ok element X Y c i hi hXY hc hY Y 0 (Y + 1) b
      (by omega) (by omega) (by simpa using hb)
    have hb1' : Filled element Y c b1 ((i + 1) * Y) := by
      rw [Nat.add_mul, Nat.one_mul]
      exact hb1
    obtain ⟨b2, hrun, hb2⟩ := ih (i + 1) f b1 (by omega) (by omega) hb1'
    refine ⟨b2, ?_, hb2⟩
    have hcond : (i : Int) < (X : Int) := by exact_mod_cast hi
    have hnext : intAdd (i : Int) 1 = ((i + 1 : Nat) : Int) :=
      intAdd_one i (by have : ((i + 1 : Nat) : Int) ≤ (X : Int) := by exact_mod_cast hi
                       omega)
    have hrow' : fillRow element (Y : Int) (i : Int) ((Y : Int).toNat + 1) 0 b = .ok b1 := by
      simpa using hrow
    rw [fillRows]
    simp only [hcond, if_true, hrow', hnext]
    exact hrun

/-- The statements from `calloc` on, when the allocated block holds the window. -/
theorem fillAndPut_ok (v : Variable) (element : Int → Int → Int) (nelements xcount ycount : Int)
    (hx : 0 ≤ xcount) (hy : 0 ≤ ycount) (hxm : xcount ≤ INT_MAX) (hym : ycount ≤ INT_MAX)
    (hn : xcount * ycount ≤ nelements) (hnm : nelements ≤ INT_MAX) :
    ∃ b, fillAndPut v element nelements xcount ycount = ⟨some v, some b, .finished⟩ ∧
      Filled element ycount.toNat nelements.toNat b (xcount.toNat * ycount.toNat) := by
  have hn0 : 0 ≤ nelements := le_trans (Int.mul_nonneg hx hy) hn
  obtain ⟨X, rfl⟩ : ∃ X : Nat, xcount = X := ⟨xcount.toNat, (Int.toNat_of_nonneg hx).symm⟩
  obtain ⟨Y, rfl⟩ : ∃ Y : Nat, ycount = Y := ⟨ycount.toNat, (Int.toNat_of_nonneg hy).symm⟩
  obtain ⟨c, rfl⟩ : ∃ c : Nat, nelements = c := ⟨nelements.toNat, (Int.toNat_of_nonneg hn0).symm⟩
  have hXY : X * Y ≤ c := by exact_mod_cast hn
  have hsize : toSizeT (c : Int) = c := toSizeT_natCast c (by
    unfold INT_MAX at hnm
    unfold SIZE_MOD
    omega)
  have hcal : Filled element Y c (calloc (toSizeT (c : Int)) SIZEOF_INT) (0 * Y) := by
    rw [hsize]
    refine ⟨?_, by simp [calloc], fun k hk => by omega⟩
    have : c * SIZEOF_INT < SIZE_MOD := by
      unfold INT_MAX at hnm
      unfold SIZE_MOD SIZEOF_INT
      omega
    simp [calloc, this]
  obtain ⟨b, hrun, hb⟩ := fillRows_ok element X Y c hXY hnm hxm hym X 0 (X + 1) _
    (by omega) (by omega) hcal
  refine ⟨b, ?_, by simpa using hb⟩
  unfold fillAndPut
  have hrun' : fillRows element (X : Int) (Y : Int) ((X : Int).toNat + 1) 0
      (calloc (toSizeT (c : Int)) SIZEOF_INT) = .ok b := by
    simpa using hrun
  rw [hrun']

/-- A store inside the block succeeds and keeps the size of the block. -/
theorem store_capacity (b : Buffer) (c index : Nat) (value : Int)
    (hcap : b.capacity = some c) (hlt : index < c) :
    ∃ b1, b.store index value = .ok b1 ∧ b1.capacity = some c :=
  ⟨⟨some c, fun k => if k = index then value else b.data k, b.log ++ [index]⟩,
    by simp [Buffer.store, hcap, hlt], rfl⟩

/-- The inner loop faults when the row does not fit the rest of the block. -/
theorem fillRow_fault (element : Int → Int → Int) (Y c i : Nat)
    (hc : (c : Int) ≤ INT_MAX) (hY : (Y : Int) ≤ INT_MAX) :
    ∀ (n j fuel : Nat) (b : Buffer), j + n = Y → n < fuel → b.capacity = some c →
      i * Y + j ≤ c → c < i * Y + Y →
      fillRow element (Y : Int) (i : Int) fuel (j : Int) b = .error .outOfBounds := by
  intro n
  induction n with
  | zero =>
    intro j fuel b hjn _ _ hle hlt
    omega
  | succ n ih =>
    intro j fuel b hjn hfuel hcap hle hlt
    obtain ⟨f, rfl⟩ : ∃ f, fuel = f + 1 := ⟨fuel - 1, by omega⟩
    have hj : j < Y := by omega
    have hfit : ((i * Y + j : Nat) : Int) ≤ INT_MAX := by
      have : ((i * Y + j : Nat) : Int) ≤ (c : Int) := by exact_mod_cast hle
      omega
    have hcond : (j : Int) < (Y : Int) := by exact_mod_cast hj
    have hnext : intAdd (j : Int) 1 = ((j + 1 : Nat) : Int) :=
      intAdd_one j (by have : ((j + 1 : Nat) : Int) ≤ (Y : Int) := by exact_mod_cast hj
                       omega)
    rw [fillRow]
    simp only [hcond, if_true, index_exact i Y j hfit]
    by_cases hin : i * Y + j < c
    · obtain ⟨b1, hstore, hcap1⟩ := store_capacity b c (i * Y + j)
        (element (i : Int) (j : Int)) hcap hin
      simp only [hstore, hnext]
      exact ih (j + 1) f b1 (by omega) (by omega) hcap1 (by omega) hlt
    · simp [Buffer.store, hcap, hin]

/-- The outer loop faults when the window does not fit the block. -/
theorem fillRows_fault (element : Int → Int → Int) (X Y c : Nat)
    (hlt : c < X * Y) (hc : (c : Int) ≤ INT_MAX) (hX : (X : Int) ≤ INT_MAX)
    (hY : (Y : Int) ≤ INT_MAX) :
    ∀ (n i fuel : Nat) (b : Buffer), i + n = X → n < fuel →
      Filled element Y c b (i * Y) → i * Y ≤ c →
      fillRows element (X : Int) (Y : Int) fuel (i : Int) b = .error .outOfBounds := by
  intro n
  induction n with
  | zero =>
    intro i fuel b hin _ _ hle
    have hiX : i = X := by omega
    subst hiX
    omega
  | succ n ih =>
    intro i fuel b hin hfuel hb hle
    obtain ⟨f, rfl⟩ : ∃ f, fuel = f + 1 := ⟨fuel - 1, by omega⟩
    have hi : i < X := by omega
    have hcond : (i : Int) < (X : Int) := by exact_mod_cast hi
    have hnext : intAdd (i : Int) 1 = ((i + 1 : Nat) : Int) :=
      intAdd_one i (by have : ((i + 1 : Nat) : Int) ≤ (X : Int) := by exact_mod_cast hi
                       omega)
    rw [fillRows]
    simp only [hcond, if_true]
    by_cases hrow : (i + 1) * Y ≤ c
    · obtain ⟨b1, hrun, hb1⟩ := fillRow_ok element (i + 1) Y c i (Nat.lt_succ_self i) hrow hc hY
        Y 0 (Y + 1) b (by omega) (by omega) (by simpa using hb)
      have hrun' : fillRow element (Y : Int) (i : Int) ((Y : Int).toNat + 1) 0 b = .ok b1 := by
        simpa using hrun
      have hb1' : Filled element Y c b1 ((i + 1) * Y) := by
        rw [Nat.add_mul, Nat.one_mul]
        exact hb1
      simp only [hrun', hnext]
      exact ih (i + 1) f b1 (by omega) (by omega) hb1' hrow
    · have hrun := fillRow_fault element Y c i hc hY Y 0 (Y + 1) b (by omega) (by omega)
        hb.1 (by omega) (by rw [Nat.add_mul, Nat.one_mul] at hrow; omega)
      have hrun' : fillRow element (Y : Int) (i : Int) ((Y : Int).toNat + 1) 0 b
          = .error .outOfBounds := by
        simpa using hrun
      simp only [hrun']

/-- The first store faults when `calloc` returned a null pointer. -/
theorem fillRows_null (element : Int → Int → Int) (X Y fuel : Nat) (hX : 0 < X) (hY : 0 < Y)
    (b : Buffer) (hcap : b.capacity = none) :
    fillRows element (X : Int) (Y : Int) (fuel + 1) 0 b = .error .nullPointer := by
  have hx : (0 : Int) < (X : Int) := by exact_mod_cast hX
  have hy : (0 : Int) < (Y : Int) := by exact_mod_cast hY
  rw [fillRows]
  simp only [hx, if_true]
  rw [fillRow]
  simp [hy, Buffer.store, hcap]

/-- A run that stores at least one element hands a buffer to the I/O engine
only when the allocated block holds the window, and the buffer is then filled. -/
theorem fillAndPut_buffer (v : Variable) (element : Int → Int → Int)
    (nelements xcount ycount : Int)
    (hx : 0 ≤ xcount) (hy : 0 ≤ ycount) (hxm : xcount ≤ INT_MAX) (hym : ycount ≤ INT_MAX)
    (hn1 : INT_MIN ≤ nelements) (hn2 : nelements ≤ INT_MAX) (hpos : 0 < xcount * ycount)
    (b : Buffer) (hb : (fillAndPut v element nelements xcount ycount).buffer = some b) :
    xcount * ycount ≤ nelements ∧
      Filled element ycount.toNat nelements.toNat b (xcount.toNat * ycount.toNat) := by
  by_cases h : xcount * ycount ≤ nelements
  · obtain ⟨b1, hrun, hb1⟩ := fillAndPut_ok v element nelements xcount ycount hx hy hxm hym h hn2
    rw [hrun] at hb
    have hbb : b1 = b := Option.some.inj hb
    subst hbb
    exact ⟨h, hb1⟩
  · exfalso
    obtain ⟨X, rfl⟩ : ∃ X : Nat, xcount = X := ⟨xcount.toNat, (Int.toNat_of_nonneg hx).symm⟩
    obtain ⟨Y, rfl⟩ : ∃ Y : Nat, ycount = Y := ⟨ycount.toNat, (Int.toNat_of_nonneg hy).symm⟩
    have hXY : 0 < X * Y := by exact_mod_cast hpos
    have hXp : 0 < X := Nat.pos_of_mul_pos_right hXY
    have hYp : 0 < Y := Nat.pos_of_mul_pos_left hXY
    by_cases hneg : nelements < 0
    · have hcap : (calloc (toSizeT nelements) SIZEOF_INT).capacity = none := by
        have e : toSizeT nelements = (nelements + 18446744073709551616).toNat := by
          unfold toSizeT SIZE_MOD
          unfold INT_MIN at hn1
          congr 1
          omega
        have : ¬ (toSizeT nelements * SIZEOF_INT < SIZE_MOD) := by
          rw [e]
          unfold INT_MIN at hn1
          unfold SIZEOF_INT SIZE_MOD
          omega
        simp [calloc, this]
      have hrun := fillRows_null element X Y (X : Int).toNat hXp hYp _ hcap
      unfold fillAndPut at hb
      rw [hrun] at hb
      cases hb
    · obtain ⟨c, rfl⟩ : ∃ c : Nat, nelements = c :=
        ⟨nelements.toNat, (Int.toNat_of_nonneg (by omega)).symm⟩
      have hlt : c < X * Y := by
        have : (c : Int) < ((X * Y : Nat) : Int) := by push_cast; omega
        exact_mod_cast this
      have hsize : toSizeT (c : Int) = c := toSizeT_natCast c (by
        unfold INT_MAX at hn2
        unfold SIZE_MOD
        omega)
      have hcal : Filled element Y c (calloc (toSizeT (c : Int)) SIZEOF_INT) (0 * Y) := by
        rw [hsize]
        refine ⟨?_, by simp [calloc], fun k hk => by omega⟩
        have : c * SIZEOF_INT < SIZE_MOD := by
          unfold INT_MAX at hn2
          unfold SIZE_MOD SIZEOF_INT
          omega
        simp [calloc, this]
      have hrun := fillRows_fault element X Y c hlt hn2 hxm hym X 0 (X + 1) _
        (by omega) (by omega) hcal (by omega)
      have hrun' : fillRows element (X : Int) (Y : Int) ((X : Int).toNat + 1) 0
          (calloc (toSizeT (c : Int)) SIZEOF_INT) = .error .outOfBounds := by
        simpa using hrun
      unfold fillAndPut at hb
      rw [hrun'] at hb
      cases hb

/-! ## The stored elements -/

theorem wrapInt_modEq (v : Int) : Int.ModEq 4294967296 (wrapInt v) v := by
  unfold Int.ModEq wrapInt
  omega

theorem toSizeT_modEq (v : Int) : Int.ModEq 4294967296 ((toSizeT v : Nat) : Int) v := by
  unfold toSizeT SIZE_MOD
  rw [Int.toNat_of_nonneg (Int.emod_nonneg _ (by norm_num))]
  unfold Int.ModEq
  push_cast
  omega

/-- The element `writer.c` stores is the row-major index computed from the
defined start and shape, whenever that index fits the type `int`. -/
theorem writer_element_eq (a : writer.Args) (i j : Nat)
    (hF : (((toSizeT a.xstart + i) * toSizeT a.ysize + toSizeT a.ystart + j : Nat) : Int)
      ≤ INT_MAX) :
    writer.element a (i : Int) (j : Int) =
      (((toSizeT a.xstart + i) * toSizeT a.ysize + toSizeT a.ystart + j : Nat) : Int) := by
  have h1 : Int.ModEq 4294967296 (intAdd a.xstart i) ((toSizeT a.xstart : Nat) + (i : Int)) :=
    (wrapInt_modEq _).trans ((toSizeT_modEq a.xstart).symm.add (Int.ModEq.refl _))
  have h2 : Int.ModEq 4294967296 (intMul (intAdd a.xstart i) a.ysize)
      (((toSizeT a.xstart : Nat) + (i : Int)) * (toSizeT a.ysize : Nat)) :=
    (wrapInt_modEq _).trans (h1.mul (toSizeT_modEq a.ysize).symm)
  have h3 : Int.ModEq 4294967296 (intAdd (intMul (intAdd a.xstart i) a.ysize) a.ystart)
      (((toSizeT a.xstart : Nat) + (i : Int)) * (toSizeT a.ysize : Nat)
        + (toSizeT a.ystart : Nat)) :=
    (wrapInt_modEq _).trans (h2.add (toSizeT_modEq a.ystart).symm)
  have h4 : Int.ModEq 4294967296 (writer.element a (i : Int) (j : Int))
      (((toSizeT a.xstart : Nat) + (i : Int)) * (toSizeT a.ysize : Nat)
        + (toSizeT a.ystart : Nat) + (j : Int)) :=
    (wrapInt_modEq _).trans (h3.add (Int.ModEq.refl _))
  have hr := wrapInt_range
    (intAdd (intMul (intAdd a.xstart i) a.ysize) a.ystart + (j : Int))
  have he : writer.element a (i : Int) (j : Int) =
      wrapInt (intAdd (intMul (intAdd a.xstart i) a.ysize) a.ystart + (j : Int)) := rfl
  rw [← he] at hr
  have h0 : (0 : Int) ≤
      (((toSizeT a.xstart + i) * toSizeT a.ysize + toSizeT a.ystart + j : Nat) : Int) :=
    Int.natCast_nonneg _
  push_cast at hF h0 ⊢
  unfold Int.ModEq at h4
  unfold INT_MIN INT_MAX at hr
  unfold INT_MAX at hF
  omega

/-- The element `writer_weak_scaling.c` stores is the row-major index computed
from the defined start and shape, whenever that index fits the type `int`. -/
theorem weak_element_eq (v : Variable) (i j : Nat) (hi : i < SIZE_MOD)
    (hF : (((v.start0 + i) * v.shape1 + v.start1 + j : Nat) : Int) ≤ INT_MAX) :
    writer_weak_scaling.element v (i : Int) (j : Int) =
      (((v.start0 + i) * v.shape1 + v.start1 + j : Nat) : Int) := by
  have hFn : (v.start0 + i) * v.shape1 + v.start1 + j < SIZE_MOD := by
    unfold INT_MAX at hF
    unfold SIZE_MOD
    omega
  have hj : j < SIZE_MOD := by omega
  have h1 : Nat.ModEq SIZE_MOD (sizeAdd v.start0 i) (v.start0 + i) := Nat.mod_modEq _ _
  have h2 : Nat.ModEq SIZE_MOD (sizeMul (sizeAdd v.start0 i) v.shape1)
      ((v.start0 + i) * v.shape1) :=
    (Nat.mod_modEq _ _).trans (h1.mul (Nat.ModEq.refl _))
  have h3 : Nat.ModEq SIZE_MOD (sizeAdd (sizeMul (sizeAdd v.start0 i) v.shape1) v.start1)
      ((v.start0 + i) * v.shape1 + v.start1) :=
    (Nat.mod_modEq _ _).trans (h2.add (Nat.ModEq.refl _))
  have h4 : Nat.ModEq SIZE_MOD
      (sizeAdd (sizeAdd (sizeMul (sizeAdd v.start0 i) v.shape1) v.start1) j)
      ((v.start0 + i) * v.shape1 + v.start1 + j) :=
    (Nat.mod_modEq _ _).trans (h3.add (Nat.ModEq.refl _))
  have hlt : sizeAdd (sizeAdd (sizeMul (sizeAdd v.start0 i) v.shape1) v.start1) j < SIZE_MOD :=
    Nat.mod_lt _ (by unfold SIZE_MOD; omega)
  have heq : sizeAdd (sizeAdd (sizeMul (sizeAdd v.start0 i) v.shape1) v.start1) j =
      (v.start0 + i) * v.shape1 + v.start1 + j := by
    unfold Nat.ModEq at h4
    rwa [Nat.mod_eq_of_lt hlt, Nat.mod_eq_of_lt hFn] at h4
  unfold writer_weak_scaling.element
  rw [toSizeT_natCast i hi, toSizeT_natCast j hj, heq]
  exact wrapInt_of_fits _ (by unfold INT_MIN; omega) hF

/-! ## Claims about the reader -/

/-- C1. Reader window: when every collaborator call succeeds, for every global
shape, every grid with factors of at least 1 and every coordinate inside the
grid, the reader selects `Count[d] = shape[d] / dims[d]` (truncating division)
and `Start[d] = coords[d] * Count[d]` in both dimensions. -/
theorem reader_window (env : CartEnv) (shape0 shape1 : Nat)
    (hok : env.succeeds) (hgrid : env.gridOk) (hcoords : env.coordsOk)
    (hs0 : shape0 < SIZE_MOD) (hs1 : shape1 < SIZE_MOD) :
    ∃ v, reader_weak_scaling.main env (some (shape0, shape1)) = .ok v ∧
      (v.count0 : Int) = Int.tdiv shape0 env.dims0 ∧
      (v.count1 : Int) = Int.tdiv shape1 env.dims1 ∧
      (v.start0 : Int) = env.coords0 * v.count0 ∧
      (v.start1 : Int) = env.coords1 * v.count1 := by
  refine ⟨_, reader_main_ok env shape0 shape1 hok hgrid hcoords hs0 hs1, ?_, ?_, ?_, ?_⟩
  · obtain ⟨hd0, _, _, _⟩ := hgrid
    rw [Int.tdiv_eq_ediv (by omega) (by omega)]
    simp only [Int.natCast_div]
    rw [Int.toNat_of_nonneg (by omega)]
  · obtain ⟨_, _, hd1, _⟩ := hgrid
    rw [Int.tdiv_eq_ediv (by omega) (by omega)]
    simp only [Int.natCast_div]
    rw [Int.toNat_of_nonneg (by omega)]
  · obtain ⟨hc0, _, _, _⟩ := hcoords
    simp only [Nat.cast_mul]
    rw [Int.toNat_of_nonneg hc0]
  · obtain ⟨_, _, hc1, _⟩ := hcoords
    simp only [Nat.cast_mul]
    rw [Int.toNat_of_nonneg hc1]

/-- Witness for C1: shape (8,4), grid (4,1), coordinate (3,0). -/
theorem reader_window_witness :
    ∃ v, reader_weak_scaling.main ⟨0, 0, 0, 0, 0, 0, 0, 0, 0, 0, 4, 1, 3, 0⟩ (some (8, 4))
        = .ok v ∧
      (v.count0 : Int) = Int.tdiv (8 : Nat) 4 ∧ (v.count1 : Int) = Int.tdiv (4 : Nat) 1 ∧
      (v.start0 : Int) = 3 * v.count0 ∧ (v.start1 : Int) = 0 * v.count1 :=
  reader_window ⟨0, 0, 0, 0, 0, 0, 0, 0, 0, 0, 4, 1, 3, 0⟩ 8 4 (by decide) (by decide)
    (by decide) (by decide) (by decide)

/-- C6. Reader truncation and coverage: a global element `(x, y)` belongs to the
reader window of some grid coordinate exactly when `x < dims[0] * (shape[0] / dims[0])`
and `y < dims[1] * (shape[1] / dims[1])`; these bounds do not exceed the shape, and
in each dimension exactly `shape[d] mod dims[d]` trailing indices stay uncovered. -/
theorem reader_coverage (env : CartEnv) (shape0 shape1 : Nat)
    (hok : env.succeeds) (hgrid : env.gridOk)
    (hs0 : shape0 < SIZE_MOD) (hs1 : shape1 < SIZE_MOD) :
    (∀ x y : Nat,
      (∃ c0 c1 : Int, (env.atCoords c0 c1).coordsOk ∧
        ∃ v, reader_weak_scaling.main (env.atCoords c0 c1) (some (shape0, shape1)) = .ok v ∧
          v.covers x y) ↔
      ((x : Int) < env.dims0 * Int.tdiv shape0 env.dims0 ∧
        (y : Int) < env.dims1 * Int.tdiv shape1 env.dims1)) ∧
    env.dims0 * Int.tdiv shape0 env.dims0 ≤ shape0 ∧
    env.dims1 * Int.tdiv shape1 env.dims1 ≤ shape1 ∧
    (shape0 : Int) - env.dims0 * Int.tdiv shape0 env.dims0 = Int.tmod shape0 env.dims0 ∧
    (shape1 : Int) - env.dims1 * Int.tdiv shape1 env.dims1 = Int.tmod shape1 env.dims1 := by
  obtain ⟨hd0, hd0m, hd1, hd1m⟩ := hgrid
  have hg : env.gridOk := ⟨hd0, hd0m, hd1, hd1m⟩
  have e0 : ((env.dims0.toNat : Nat) : Int) = env.dims0 := Int.toNat_of_nonneg (by omega)
  have e1 : ((env.dims1.toNat : Nat) : Int) = env.dims1 := Int.toNat_of_nonneg (by omega)
  have m0 := Nat.mul_div_le shape0 env.dims0.toNat
  have m1 := Nat.mul_div_le shape1 env.dims1.toNat
  have r0 := Nat.div_add_mod shape0 env.dims0.toNat
  have r1 := Nat.div_add_mod shape1 env.dims1.toNat
  rw [tdiv_toNat shape0 env.dims0 (by omega), tdiv_toNat shape1 env.dims1 (by omega),
    tmod_toNat shape0 env.dims0 (by omega), tmod_toNat shape1 env.dims1 (by omega)]
  have k0 : env.dims0 * ((shape0 / env.dims0.toNat : Nat) : Int)
      = ((env.dims0.toNat * (shape0 / env.dims0.toNat) : Nat) : Int) := by
    rw [Nat.cast_mul, e0]
  have k1 : env.dims1 * ((shape1 / env.dims1.toNat : Nat) : Int)
      = ((env.dims1.toNat * (shape1 / env.dims1.toNat) : Nat) : Int) := by
    rw [Nat.cast_mul, e1]
  rw [k0, k1]
  refine ⟨fun x y => ?_, by exact_mod_cast m0, by exact_mod_cast m1, by omega, by omega⟩
  rw [Nat.cast_lt, Nat.cast_lt, ← cover_iff, ← cover_iff]
  constructor
  · rintro ⟨c0, c1, hc, v, hv, hcov⟩
    rw [reader_main_ok (env.atCoords c0 c1) shape0 shape1 hok hg hc hs0 hs1] at hv
    injection hv with hv
    subst hv
    obtain ⟨hc0, hc0d, hc1, hc1d⟩ := hc
    simp only [CartEnv.atCoords] at hc0 hc0d hc1 hc1d
    obtain ⟨a1, a2, a3, a4⟩ := hcov
    simp only [CartEnv.atCoords] at a1 a2 a3 a4
    exact ⟨⟨c0.toNat, by omega, a1, a2⟩, ⟨c1.toNat, by omega, a3, a4⟩⟩
  · rintro ⟨⟨c0, hc0, a1, a2⟩, ⟨c1, hc1, a3, a4⟩⟩
    have hc : (env.atCoords (c0 : Int) (c1 : Int)).coordsOk := by
      simp only [CartEnv.coordsOk, CartEnv.atCoords]
      omega
    refine ⟨(c0 : Int), (c1 : Int), hc, _,
      reader_main_ok (env.atCoords c0 c1) shape0 shape1 hok hg hc hs0 hs1, ?_⟩
    simp only [Variable.covers, CartEnv.atCoords, Int.toNat_ofNat]
    exact ⟨a1, a2, a3, a4⟩

/-- Witness for C6: extent 10 on a grid factor 3 (and extent 4 on a factor 1). -/
theorem reader_coverage_witness :
    (∀ x y : Nat,
      (∃ c0 c1 : Int,
        (CartEnv.atCoords ⟨0, 0, 0, 0, 0, 0, 0, 0, 0, 0, 3, 1, 0, 0⟩ c0 c1).coordsOk ∧
        ∃ v, reader_weak_scaling.main
            (CartEnv.atCoords ⟨0, 0, 0, 0, 0, 0, 0, 0, 0, 0, 3, 1, 0, 0⟩ c0 c1)
            (some (10, 4)) = .ok v ∧ v.covers x y) ↔
      ((x : Int) < 3 * Int.tdiv (10 : Nat) 3 ∧ (y : Int) < 1 * Int.tdiv (4 : Nat) 1)) ∧
    3 * Int.tdiv (10 : Nat) 3 ≤ ((10 : Nat) : Int) ∧
    1 * Int.tdiv (4 : Nat) 1 ≤ ((4 : Nat) : Int) ∧
    ((10 : Nat) : Int) - 3 * Int.tdiv (10 : Nat) 3 = Int.tmod (10 : Nat) 3 ∧
    ((4 : Nat) : Int) - 1 * Int.tdiv (4 : Nat) 1 = Int.tmod (4 : Nat) 1 :=
  reader_coverage ⟨0, 0, 0, 0, 0, 0, 0, 0, 0, 0, 3, 1, 0, 0⟩ 10 4 (by decide) (by decide)
    (by decide) (by decide)

/-! ## Claims about the windows of the writers -/

/-- C2. Weak-scaling writer window: for non-negative local counts parsed from the
command line, every grid and coordinate (non-negative `int` values) for which
the products `dims[d] * Count[d]` and `coords[d] * Count[d]` fit the type `int`,
the variable has `Count = (xCount, yCount)` as supplied,
`Start[d] = coords[d] * Count[d]` and `GlobalShape[d] = dims[d] * Count[d]`. -/
theorem weak_writer_window (p a1 a2 : String) (env : CartEnv) (hok : env.succeeds)
    (hx : 0 ≤ atoi a1) (hy : 0 ≤ atoi a2)
    (hd0 : 0 ≤ env.dims0) (hd1 : 0 ≤ env.dims1)
    (hc0 : 0 ≤ env.coords0) (hc1 : 0 ≤ env.coords1)
    (hs0 : env.dims0 * atoi a1 ≤ INT_MAX) (hs1 : env.dims1 * atoi a2 ≤ INT_MAX)
    (ht0 : env.coords0 * atoi a1 ≤ INT_MAX) (ht1 : env.coords1 * atoi a2 ≤ INT_MAX) :
    ∃ v, (writer_weak_scaling.main [p, a1, a2] env).defined = some v ∧
      (v.count0 : Int) = atoi a1 ∧ (v.count1 : Int) = atoi a2 ∧
      (v.start0 : Int) = env.coords0 * v.count0 ∧ (v.start1 : Int) = env.coords1 * v.count1 ∧
      (v.shape0 : Int) = env.dims0 * v.count0 ∧ (v.shape1 : Int) = env.dims1 * v.count1 := by
  refine ⟨_, weak_main_defined p a1 a2 env hok hx hy hd0 hd1 hc0 hc1 hs0 hs1 ht0 ht1,
    ?_, ?_, ?_, ?_, ?_, ?_⟩ <;>
    simp only [Nat.cast_mul, Int.toNat_of_nonneg hx, Int.toNat_of_nonneg hy,
      Int.toNat_of_nonneg hd0, Int.toNat_of_nonneg hd1, Int.toNat_of_nonneg hc0,
      Int.toNat_of_nonneg hc1]

/-- Witness for C2: `xCount = yCount = 3`, grid (2,2), coordinate (1,0). -/
theorem weak_writer_window_witness :
    ∃ v, (writer_weak_scaling.main ["writer", "3", "3"]
        ⟨0, 0, 0, 0, 0, 0, 0, 0, 0, 0, 2, 2, 1, 0⟩).defined = some v ∧
      (v.count0 : Int) = 3 ∧ (v.count1 : Int) = 3 ∧
      (v.start0 : Int) = 1 * v.count0 ∧ (v.start1 : Int) = 0 * v.count1 ∧
      (v.shape0 : Int) = 2 * v.count0 ∧ (v.shape1 : Int) = 2 * v.count1 :=
  weak_writer_window "writer" "3" "3" ⟨0, 0, 0, 0, 0, 0, 0, 0, 0, 0, 2, 2, 1, 0⟩
    (by decide) (by decide) (by decide) (by decide) (by decide) (by decide) (by decide)
    (by decide) (by decide) (by decide) (by decide)

/-- C4. Derived windows stay inside the global array: for every grid with
factors of at least 1 and every coordinate inside it, the window of the reader
(for every global shape) and the window of the weak-scaling writer (for
non-negative counts whose products `dims[d] * Count[d]` fit the type `int`)
satisfy `Start[d] + Count[d] <= GlobalShape[d]` in both dimensions. -/
theorem derived_windows_within_shape (env : CartEnv) (hok : env.succeeds)
    (hgrid : env.gridOk) (hcoords : env.coordsOk) :
    (∀ shape0 shape1 : Nat, shape0 < SIZE_MOD → shape1 < SIZE_MOD →
      ∃ v, reader_weak_scaling.main env (some (shape0, shape1)) = .ok v ∧
        v.shape0 = shape0 ∧ v.shape1 = shape1 ∧
        v.start0 + v.count0 ≤ v.shape0 ∧ v.start1 + v.count1 ≤ v.shape1) ∧
    (∀ p a1 a2 : String, 0 ≤ atoi a1 → 0 ≤ atoi a2 →
      env.dims0 * atoi a1 ≤ INT_MAX → env.dims1 * atoi a2 ≤ INT_MAX →
      ∃ v, (writer_weak_scaling.main [p, a1, a2] env).defined = some v ∧
        v.start0 + v.count0 ≤ v.shape0 ∧ v.start1 + v.count1 ≤ v.shape1) := by
  obtain ⟨hd0, hd0m, hd1, hd1m⟩ := hgrid
  obtain ⟨hc0, hc0d, hc1, hc1d⟩ := hcoords
  have l0 : env.coords0.toNat < env.dims0.toNat := by omega
  have l1 : env.coords1.toNat < env.dims1.toNat := by omega
  constructor
  · intro shape0 shape1 hs0 hs1
    refine ⟨_, reader_main_ok env shape0 shape1 hok ⟨hd0, hd0m, hd1, hd1m⟩
      ⟨hc0, hc0d, hc1, hc1d⟩ hs0 hs1, rfl, rfl, ?_, ?_⟩
    · exact le_trans (block_within _ _ _ l0) (Nat.mul_div_le _ _)
    · exact le_trans (block_within _ _ _ l1) (Nat.mul_div_le _ _)
  · intro p a1 a2 hx hy hs0 hs1
    have ht0 : env.coords0 * atoi a1 ≤ INT_MAX :=
      le_trans (Int.mul_le_mul_of_nonneg_right (le_of_lt hc0d) hx) hs0
    have ht1 : env.coords1 * atoi a2 ≤ INT_MAX :=
      le_trans (Int.mul_le_mul_of_nonneg_right (le_of_lt hc1d) hy) hs1
    refine ⟨_, weak_main_defined p a1 a2 env hok hx hy (by omega) (by omega) hc0 hc1
      hs0 hs1 ht0 ht1, block_within _ _ _ l0, block_within _ _ _ l1⟩

/-- Witness for C4: grid (2,2), coordinate (1,0); shape (8,4) and counts (3,3). -/
theorem derived_windows_within_shape_witness :
    (∃ v, reader_weak_scaling.main ⟨0, 0, 0, 0, 0, 0, 0, 0, 0, 0, 2, 2, 1, 0⟩ (some (8, 4))
        = .ok v ∧ v.shape0 = 8 ∧ v.shape1 = 4 ∧
        v.start0 + v.count0 ≤ v.shape0 ∧ v.start1 + v.count1 ≤ v.shape1) ∧
    (∃ v, (writer_weak_scaling.main ["writer", "3", "3"]
        ⟨0, 0, 0, 0, 0, 0, 0, 0, 0, 0, 2, 2, 1, 0⟩).defined = some v ∧
        v.start0 + v.count0 ≤ v.shape0 ∧ v.start1 + v.count1 ≤ v.shape1) :=
  ⟨(derived_windows_within_shape ⟨0, 0, 0, 0, 0, 0, 0, 0, 0, 0, 2, 2, 1, 0⟩ (by decide)
      (by decide) (by decide)).1 8 4 (by decide) (by decide),
    (derived_windows_within_shape ⟨0, 0, 0, 0, 0, 0, 0, 0, 0, 0, 2, 2, 1, 0⟩ (by decide)
      (by decide) (by decide)).2 "writer" "3" "3" (by decide) (by decide) (by decide)
      (by decide)⟩

/-- C5 (amended). Windows of distinct participants do not overlap: for every
grid with factors of at least 1 and two distinct coordinates inside it, the
two windows of the reader (for every global shape) and the two windows of the
weak-scaling writer (for non-negative counts whose products
`dims[d] * Count[d]` fit the type `int`) have no global element in common. -/
theorem distinct_windows_disjoint (env : CartEnv) (hok : env.succeeds) (hgrid : env.gridOk)
    (c0 c1 k0 k1 : Int) (hc : (env.atCoords c0 c1).coordsOk)
    (hk : (env.atCoords k0 k1).coordsOk) (hne : c0 ≠ k0 ∨ c1 ≠ k1) :
    (∀ shape0 shape1 : Nat, shape0 < SIZE_MOD → shape1 < SIZE_MOD →
      ∃ v w, reader_weak_scaling.main (env.atCoords c0 c1) (some (shape0, shape1)) = .ok v ∧
        reader_weak_scaling.main (env.atCoords k0 k1) (some (shape0, shape1)) = .ok w ∧
        ∀ x y : Nat, ¬ (v.covers x y ∧ w.covers x y)) ∧
    (∀ p a1 a2 : String, 0 ≤ atoi a1 → 0 ≤ atoi a2 →
      env.dims0 * atoi a1 ≤ INT_MAX → env.dims1 * atoi a2 ≤ INT_MAX →
      ∃ v w, (writer_weak_scaling.main [p, a1, a2] (env.atCoords c0 c1)).defined = some v ∧
        (writer_weak_scaling.main [p, a1, a2] (env.atCoords k0 k1)).defined = some w ∧
        ∀ x y : Nat, ¬ (v.covers x y ∧ w.covers x y)) := by
  obtain ⟨hd0, hd0m, hd1, hd1m⟩ := hgrid
  have hg : env.gridOk := ⟨hd0, hd0m, hd1, hd1m⟩
  obtain ⟨hc0, hc0d, hc1, hc1d⟩ := hc
  obtain ⟨hk0, hk0d, hk1, hk1d⟩ := hk
  simp only [CartEnv.atCoords] at hc0 hc0d hc1 hc1d hk0 hk0d hk1 hk1d
  have hne2 : c0.toNat ≠ k0.toNat ∨ c1.toNat ≠ k1.toNat := by omega
  constructor
  · intro shape0 shape1 hs0 hs1
    refine ⟨_, _,
      reader_main_ok (env.atCoords c0 c1) shape0 shape1 hok hg ⟨hc0, hc0d, hc1, hc1d⟩ hs0 hs1,
      reader_main_ok (env.atCoords k0 k1) shape0 shape1 hok hg ⟨hk0, hk0d, hk1, hk1d⟩ hs0 hs1,
      ?_⟩
    rintro x y ⟨⟨a1, a2, a3, a4⟩, ⟨b1, b2, b3, b4⟩⟩
    simp only [CartEnv.atCoords] at a1 a2 a3 a4 b1 b2 b3 b4
    rcases hne2 with h | h
    · exact block_disjoint _ _ _ x h ⟨a1, a2, b1, b2⟩
    · exact block_disjoint _ _ _ y h ⟨a3, a4, b3, b4⟩
  · intro p a1 a2 hx hy hs0 hs1
    have tc0 : c0 * atoi a1 ≤ INT_MAX :=
      le_trans (Int.mul_le_mul_of_nonneg_right (le_of_lt hc0d) hx) hs0
    have tc1 : c1 * atoi a2 ≤ INT_MAX :=
      le_trans (Int.mul_le_mul_of_nonneg_right (le_of_lt hc1d) hy) hs1
    have tk0 : k0 * atoi a1 ≤ INT_MAX :=
      le_trans (Int.mul_le_mul_of_nonneg_right (le_of_lt hk0d) hx) hs0
    have tk1 : k1 * atoi a2 ≤ INT_MAX :=
      le_trans (Int.mul_le_mul_of_nonneg_right (le_of_lt hk1d) hy) hs1
    refine ⟨_, _,
      weak_main_defined p a1 a2 (env.atCoords c0 c1) hok hx hy (by omega : (0 : Int) ≤ env.dims0)
        (by omega : (0 : Int) ≤ env.dims1) hc0 hc1 hs0 hs1 tc0 tc1,
      weak_main_defined p a1 a2 (env.atCoords k0 k1) hok hx hy (by omega : (0 : Int) ≤ env.dims0)
        (by omega : (0 : Int) ≤ env.dims1) hk0 hk1 hs0 hs1 tk0 tk1, ?_⟩
    rintro x y ⟨⟨a1, a2, a3, a4⟩, ⟨b1, b2, b3, b4⟩⟩
    simp only [CartEnv.atCoords] at a1 a2 a3 a4 b1 b2 b3 b4
    rcases hne2 with h | h
    · exact block_disjoint _ _ _ x h ⟨a1, a2, b1, b2⟩
    · exact block_disjoint _ _ _ y h ⟨a3, a4, b3, b4⟩

/-- Witness for C5 (amended): grid (2,2), coordinates (1,0) and (1,1). -/
theorem distinct_windows_disjoint_witness :
    (∃ v w,
      reader_weak_scaling.main
        (CartEnv.atCoords ⟨0, 0, 0, 0, 0, 0, 0, 0, 0, 0, 2, 2, 0, 0⟩ 1 0) (some (8, 4)) = .ok v ∧
      reader_weak_scaling.main
        (CartEnv.atCoords ⟨0, 0, 0, 0, 0, 0, 0, 0, 0, 0, 2, 2, 0, 0⟩ 1 1) (some (8, 4)) = .ok w ∧
      ∀ x y : Nat, ¬ (v.covers x y ∧ w.covers x y)) ∧
    (∃ v w,
      (writer_weak_scaling.main ["writer", "3", "3"]
        (CartEnv.atCoords ⟨0, 0, 0, 0, 0, 0, 0, 0, 0, 0, 2, 2, 0, 0⟩ 1 0)).defined = some v ∧
      (writer_weak_scaling.main ["writer", "3", "3"]
        (CartEnv.atCoords ⟨0, 0, 0, 0, 0, 0, 0, 0, 0, 0, 2, 2, 0, 0⟩ 1 1)).defined = some w ∧
      ∀ x y : Nat, ¬ (v.covers x y ∧ w.covers x y)) :=
  ⟨(distinct_windows_disjoint ⟨0, 0, 0, 0, 0, 0, 0, 0, 0, 0, 2, 2, 0, 0⟩ (by decide) (by decide)
      1 0 1 1 (by decide) (by decide) (by decide)).1 8 4 (by decide) (by decide),
    (distinct_windows_disjoint ⟨0, 0, 0, 0, 0, 0, 0, 0, 0, 0, 2, 2, 0, 0⟩ (by decide) (by decide)
      1 0 1 1 (by decide) (by decide) (by decide)).2 "writer" "3" "3" (by decide) (by decide)
      (by decide) (by decide)⟩

/-- Counterexample to C5 as stated: on the grid (5,1) with local counts
(1073741824, 1) the product `4 * 1073741824` does not fit the type `int`, and
the weak-scaling writers at coordinates (0,0) and (4,0) define the same
window, which holds the global element (0,0). -/
theorem distinct_windows_disjoint_counterexample :
    (writer_weak_scaling.main ["writer", "1073741824", "1"]
        (CartEnv.atCoords ⟨0, 0, 0, 0, 0, 0, 0, 0, 0, 0, 5, 1, 0, 0⟩ 0 0)).defined
      = some ⟨1073741824, 1, 0, 0, 1073741824, 1⟩ ∧
    (writer_weak_scaling.main ["writer", "1073741824", "1"]
        (CartEnv.atCoords ⟨0, 0, 0, 0, 0, 0, 0, 0, 0, 0, 5, 1, 0, 0⟩ 4 0)).defined
      = some ⟨1073741824, 1, 0, 0, 1073741824, 1⟩ ∧
    Variable.covers ⟨1073741824, 1, 0, 0, 1073741824, 1⟩ 0 0 := by
  refine ⟨?_, ?_, by decide⟩
  · rw [weak_main_ok _ _ _ _ (by decide), fillAndPut_defined]
    decide
  · rw [weak_main_ok _ _ _ _ (by decide), fillAndPut_defined]
    decide

/-! ## Claims about the command line of the writers -/

/-- C7 (amended). The explicit-window writer does not validate its six
integers: it defines `GlobalShape = (xsize, ysize)`, `Start = (xstart, ystart)`
and `Count = (xcount, ycount)` as parsed, converted to `size_t`; in a dimension
where start and count are non-negative and `start + count <= size`, the window
satisfies `Start[d] + Count[d] <= GlobalShape[d]`. -/
theorem writer_window (p a1 a2 a3 a4 a5 a6 : String) (env : WriterEnv)
    (hok : env.succeeds) :
    ∃ v, (writer.main [p, a1, a2, a3, a4, a5, a6] env).defined = some v ∧
      v = ⟨toSizeT (atoi a1), toSizeT (atoi a4), toSizeT (atoi a2), toSizeT (atoi a5),
        toSizeT (atoi a3), toSizeT (atoi a6)⟩ ∧
      (0 ≤ atoi a2 → 0 ≤ atoi a3 → atoi a2 + atoi a3 ≤ atoi a1 →
        v.start0 + v.count0 ≤ v.shape0) ∧
      (0 ≤ atoi a5 → 0 ≤ atoi a6 → atoi a5 + atoi a6 ≤ atoi a4 →
        v.start1 + v.count1 ≤ v.shape1) := by
  refine ⟨_, by rw [writer_main_ok p a1 a2 a3 a4 a5 a6 env hok, fillAndPut_defined], rfl,
    ?_, ?_⟩
  · intro h2 h3 h
    have r1 := (atoi_range a1).2
    have r2 := (atoi_range a2).2
    have r3 := (atoi_range a3).2
    simp only
    rw [toSizeT_of_nonneg _ h2 r2, toSizeT_of_nonneg _ h3 r3,
      toSizeT_of_nonneg _ (by omega) r1]
    omega
  · intro h5 h6 h
    have r4 := (atoi_range a4).2
    have r5 := (atoi_range a5).2
    have r6 := (atoi_range a6).2
    simp only
    rw [toSizeT_of_nonneg _ h5 r5, toSizeT_of_nonneg _ h6 r6,
      toSizeT_of_nonneg _ (by omega) r4]
    omega

/-- Witness for C7 (amended): global shape (4,4), start (2,0), count (2,4). -/
theorem writer_window_witness :
    ∃ v, (writer.main ["writer", "4", "2", "2", "4", "0", "4"] ⟨0, 0, 0, 0⟩).defined = some v ∧
      v = ⟨4, 4, 2, 0, 2, 4⟩ ∧
      ((0 : Int) ≤ 2 → (0 : Int) ≤ 2 → (2 : Int) + 2 ≤ 4 → v.start0 + v.count0 ≤ v.shape0) ∧
      ((0 : Int) ≤ 0 → (0 : Int) ≤ 4 → (0 : Int) + 4 ≤ 4 → v.start1 + v.count1 ≤ v.shape1) :=
  writer_window "writer" "4" "2" "2" "4" "0" "4" ⟨0, 0, 0, 0⟩ (by decide)

/-- Counterexample to C7 as stated: the accepted command line
`writer 4 3 2 4 0 4` defines a window with `Start[0] + Count[0] = 5 > 4`, and
`writer 4 -1 2 4 0 4` one whose `Start[0]` is the conversion of -1. -/
theorem writer_window_counterexample :
    (writer.main ["writer", "4", "3", "2", "4", "0", "4"] ⟨0, 0, 0, 0⟩).defined
        = some ⟨4, 4, 3, 0, 2, 4⟩ ∧
      ¬ (3 + 2 ≤ 4) ∧
      (writer.main ["writer", "4", "-1", "2", "4", "0", "4"] ⟨0, 0, 0, 0⟩).defined
        = some ⟨4, 4, 18446744073709551615, 0, 2, 4⟩ := by
  decide

/-- C9 (amended). A command line with the wrong number of arguments is
rejected: when `argc` is not 7 (`writer.c`) or not 3 (`writer_weak_scaling.c`)
the run defines no variable, fills no buffer and ends with a non-zero status,
which is status 1 after the usage message whenever `MPI_Init` succeeded. The
text of the arguments is not validated: with the right number of arguments,
whatever they are, and every MPI and ADIOS2 call succeeding, the run defines
the variable from their `atoi` values and does not end with a reported error. -/
theorem wrong_argument_count_rejected :
    (∀ (argv : List String) (env : WriterEnv), argv.length ≠ 7 →
      (writer.main argv env).defined = none ∧ (writer.main argv env).buffer = none ∧
      ∃ status message, (writer.main argv env).ending = .stopped status message ∧
        status ≠ 0 ∧
        (env.mpiInit = 0 → status = 1 ∧
          message = "Writer: ERROR: need size, start and count parameters")) ∧
    (∀ (argv : List String) (env : CartEnv), argv.length ≠ 3 →
      (writer_weak_scaling.main argv env).defined = none ∧
      (writer_weak_scaling.main argv env).buffer = none ∧
      ∃ status message, (writer_weak_scaling.main argv env).ending = .stopped status message ∧
        status ≠ 0 ∧
        (env.mpiInit = 0 → status = 1 ∧
          message = "Writer: ERROR: need xCount and yCount parameters")) ∧
    (∀ (p a1 a2 a3 a4 a5 a6 : String) (env : WriterEnv), env.succeeds →
      (writer.main [p, a1, a2, a3, a4, a5, a6] env).defined =
        some ⟨toSizeT (atoi a1), toSizeT (atoi a4), toSizeT (atoi a2), toSizeT (atoi a5),
          toSizeT (atoi a3), toSizeT (atoi a6)⟩ ∧
      ∀ status message,
        (writer.main [p, a1, a2, a3, a4, a5, a6] env).ending ≠ .stopped status message) ∧
    (∀ (p a1 a2 : String) (env : CartEnv), env.succeeds →
      (∃ v, (writer_weak_scaling.main [p, a1, a2] env).defined = some v ∧
        v.count0 = toSizeT (atoi a1) ∧ v.count1 = toSizeT (atoi a2)) ∧
      ∀ status message,
        (writer_weak_scaling.main [p, a1, a2] env).ending ≠ .stopped status message) := by
  refine ⟨?_, ?_, ?_, ?_⟩
  · intro argv env hlen
    by_cases h : env.mpiInit = 0
    · have e : writer.setup argv env =
          .error (.stopped 1 "Writer: ERROR: need size, start and count parameters") := by
        simp [writer.setup, h, hlen, bind, Except.bind, throw, throwThe, MonadExceptOf.throw,
          pure, Except.pure]
      rw [writer.main, e]
      exact ⟨rfl, rfl, _, _, rfl, by decide, fun _ => ⟨rfl, rfl⟩⟩
    · have e : writer.setup argv env =
          .error (.stopped 1 "Writer: ERROR: Unable to initialize MPI") := by
        simp [writer.setup, h, bind, Except.bind, throw, throwThe, MonadExceptOf.throw]
      rw [writer.main, e]
      exact ⟨rfl, rfl, _, _, rfl, by decide, fun h2 => absurd h2 h⟩
  · intro argv env hlen
    by_cases h : env.mpiInit = 0
    · have e : writer_weak_scaling.setup argv env =
          .error (.stopped 1 "Writer: ERROR: need xCount and yCount parameters") := by
        simp [writer_weak_scaling.setup, h, hlen, myCheck_zero, bind, Except.bind, throw,
          throwThe, MonadExceptOf.throw]
      rw [writer_weak_scaling.main, e]
      exact ⟨rfl, rfl, _, _, rfl, by decide, fun _ => ⟨rfl, rfl⟩⟩
    · have e : writer_weak_scaling.setup argv env =
          .error (.stopped env.mpiInit ("Writer: ERROR: " ++ "Unable to initialize MPI")) := by
        simp [writer_weak_scaling.setup, myCheck, h, bind, Except.bind]
      rw [writer_weak_scaling.main, e]
      exact ⟨rfl, rfl, _, _, rfl, h, fun h2 => absurd h2 h⟩
  · intro p a1 a2 a3 a4 a5 a6 env hok
    rw [writer_main_ok p a1 a2 a3 a4 a5 a6 env hok]
    exact ⟨fillAndPut_defined _ _ _ _ _, fun status message =>
      fillAndPut_ending _ _ _ _ _ status message⟩
  · intro p a1 a2 env hok
    rw [weak_main_ok p a1 a2 env hok]
    exact ⟨⟨_, fillAndPut_defined _ _ _ _ _, rfl, rfl⟩, fun status message =>
      fillAndPut_ending _ _ _ _ _ status message⟩

/-- Witness for C9 (amended): `writer 4 4` and `writer_weak_scaling 3` are
rejected, `writer 4 x 2 4 0 4` is not. -/
theorem wrong_argument_count_rejected_witness :
    ((writer.main ["writer", "4", "4"] ⟨0, 0, 0, 0⟩).defined = none ∧
      (writer.main ["writer", "4", "4"] ⟨0, 0, 0, 0⟩).buffer = none ∧
      ∃ status message,
        (writer.main ["writer", "4", "4"] ⟨0, 0, 0, 0⟩).ending = .stopped status message ∧
        status ≠ 0 ∧
        ((0 : Int) = 0 → status = 1 ∧
          message = "Writer: ERROR: need size, start and count parameters")) ∧
    ((writer_weak_scaling.main ["writer", "3"]
        ⟨0, 0, 0, 0, 0, 0, 0, 0, 0, 0, 2, 2, 1, 0⟩).defined = none ∧
      (writer_weak_scaling.main ["writer", "3"]
        ⟨0, 0, 0, 0, 0, 0, 0, 0, 0, 0, 2, 2, 1, 0⟩).buffer = none ∧
      ∃ status message,
        (writer_weak_scaling.main ["writer", "3"]
          ⟨0, 0, 0, 0, 0, 0, 0, 0, 0, 0, 2, 2, 1, 0⟩).ending = .stopped status message ∧
        status ≠ 0 ∧
        ((0 : Int) = 0 → status = 1 ∧
          message = "Writer: ERROR: need xCount and yCount parameters")) ∧
    ((writer.main ["writer", "4", "x", "2", "4", "0", "4"] ⟨0, 0, 0, 0⟩).defined =
        some ⟨4, 4, 0, 0, 2, 4⟩ ∧
      ∀ status message,
        (writer.main ["writer", "4", "x", "2", "4", "0", "4"] ⟨0, 0, 0, 0⟩).ending ≠
          .stopped status message) ∧
    ((∃ v, (writer_weak_scaling.main ["writer", "abc", "2"]
        ⟨0, 0, 0, 0, 0, 0, 0, 0, 0, 0, 2, 2, 1, 0⟩).defined = some v ∧
        v.count0 = 0 ∧ v.count1 = 2) ∧
      ∀ status message,
        (writer_weak_scaling.main ["writer", "abc", "2"]
          ⟨0, 0, 0, 0, 0, 0, 0, 0, 0, 0, 2, 2, 1, 0⟩).ending ≠ .stopped status message) :=
  ⟨wrong_argument_count_rejected.1 ["writer", "4", "4"] ⟨0, 0, 0, 0⟩ (by decide),
    wrong_argument_count_rejected.2.1 ["writer", "3"]
      ⟨0, 0, 0, 0, 0, 0, 0, 0, 0, 0, 2, 2, 1, 0⟩ (by decide),
    wrong_argument_count_rejected.2.2.1 "writer" "4" "x" "2" "4" "0" "4" ⟨0, 0, 0, 0⟩
      (by decide),
    wrong_argument_count_rejected.2.2.2 "writer" "abc" "2"
      ⟨0, 0, 0, 0, 0, 0, 0, 0, 0, 0, 2, 2, 1, 0⟩ (by decide)⟩

/-- Counterexample to C9 as stated: arguments that are not integers are not
rejected. `writer_weak_scaling abc 2` on a single process reads `abc` as 0,
defines the variable with `Count = (0, 2)` and ends with status 0; so does
`writer 4 x 2 4 0 4`, which reads `x` as the start 0. -/
theorem malformed_argument_counterexample :
    (writer_weak_scaling.main ["writer", "abc", "2"]
        ⟨0, 0, 0, 0, 0, 0, 0, 0, 0, 0, 1, 1, 0, 0⟩).defined = some ⟨0, 2, 0, 0, 0, 2⟩ ∧
    (writer_weak_scaling.main ["writer", "abc", "2"]
        ⟨0, 0, 0, 0, 0, 0, 0, 0, 0, 0, 1, 1, 0, 0⟩).ending = .finished ∧
    (writer.main ["writer", "4", "x", "2", "4", "0", "4"] ⟨0, 0, 0, 0⟩).defined
        = some ⟨4, 4, 0, 0, 2, 4⟩ ∧
    (writer.main ["writer", "4", "x", "2", "4", "0", "4"] ⟨0, 0, 0, 0⟩).ending = .finished := by
  decide

/-! ## Claims about the buffer of the writers -/

/-- C3. Writer buffer contents: in both writers, for non-negative counts, every
buffer handed to the I/O engine holds, for every local index `(i, j)` with
`i < Count[0]` and `j < Count[1]`, at the flat position `i * Count[1] + j` (which
lies in the allocated block) the value
`(Start[0] + i) * GlobalShape[1] + Start[1] + j`, whenever that value fits the
type `int`; and the buffer is handed over whenever the allocated block holds
the window. -/
theorem writer_buffer_contents :
    (∀ (p a1 a2 a3 a4 a5 a6 : String) (env : WriterEnv), env.succeeds →
      0 ≤ atoi a3 → 0 ≤ atoi a6 →
      (atoi a3 * atoi a6 ≤ atoi a1 * atoi a4 → atoi a1 * atoi a4 ≤ INT_MAX →
        ∃ b, (writer.main [p, a1, a2, a3, a4, a5, a6] env).buffer = some b ∧
          (writer.main [p, a1, a2, a3, a4, a5, a6] env).ending = .finished) ∧
      ∃ v, (writer.main [p, a1, a2, a3, a4, a5, a6] env).defined = some v ∧
        ∀ b, (writer.main [p, a1, a2, a3, a4, a5, a6] env).buffer = some b →
          ∀ i j : Nat, i < v.count0 → j < v.count1 →
            (((v.start0 + i) * v.shape1 + v.start1 + j : Nat) : Int) ≤ INT_MAX →
            (∃ c, b.capacity = some c ∧ i * v.count1 + j < c) ∧
            b.data (i * v.count1 + j) =
              (((v.start0 + i) * v.shape1 + v.start1 + j : Nat) : Int)) ∧
    (∀ (p a1 a2 : String) (env : CartEnv), env.succeeds →
      0 ≤ atoi a1 → 0 ≤ atoi a2 →
      (atoi a1 * atoi a2 ≤ INT_MAX →
        ∃ b, (writer_weak_scaling.main [p, a1, a2] env).buffer = some b ∧
          (writer_weak_scaling.main [p, a1, a2] env).ending = .finished) ∧
      ∃ v, (writer_weak_scaling.main [p, a1, a2] env).defined = some v ∧
        ∀ b, (writer_weak_scaling.main [p, a1, a2] env).buffer = some b →
          ∀ i j : Nat, i < v.count0 → j < v.count1 →
            (((v.start0 + i) * v.shape1 + v.start1 + j : Nat) : Int) ≤ INT_MAX →
            (∃ c, b.capacity = some c ∧ i * v.count1 + j < c) ∧
            b.data (i * v.count1 + j) =
              (((v.start0 + i) * v.shape1 + v.start1 + j : Nat) : Int)) := by
  constructor
  · intro p a1 a2 a3 a4 a5 a6 env hok hx hy
    have rx := (atoi_range a3).2
    have ry := (atoi_range a6).2
    have hmain := writer_main_ok p a1 a2 a3 a4 a5 a6 env hok
    constructor
    · intro hn hnm
      have hmul : intMul (atoi a1) (atoi a4) = atoi a1 * atoi a4 :=
        wrapInt_of_fits _ (le_trans (by unfold INT_MIN; omega)
          (le_trans (Int.mul_nonneg hx hy) hn)) hnm
      obtain ⟨b, hrun, _⟩ := fillAndPut_ok
        ⟨toSizeT (atoi a1), toSizeT (atoi a4), toSizeT (atoi a2), toSizeT (atoi a5),
          toSizeT (atoi a3), toSizeT (atoi a6)⟩
        (writer.element ⟨atoi a1, atoi a2, atoi a3, atoi a4, atoi a5, atoi a6,
          intMul (atoi a1) (atoi a4)⟩)
        (intMul (atoi a1) (atoi a4)) (atoi a3) (atoi a6) hx hy rx ry
        (by rw [hmul]; exact hn) (by rw [hmul]; exact hnm)
      rw [hmain, hrun]
      exact ⟨b, rfl, rfl⟩
    · refine ⟨_, by rw [hmain, fillAndPut_defined], ?_⟩
      intro b hb i j hi hj hF
      simp only [toSizeT_of_nonneg _ hx rx, toSizeT_of_nonneg _ hy ry] at hi hj ⊢
      have hflat := flat_lt _ _ i j hi hj
      have hpos : 0 < atoi a3 * atoi a6 := Int.mul_pos (by omega) (by omega)
      rw [hmain] at hb
      obtain ⟨hle, hcap, _, hdata⟩ := fillAndPut_buffer _ _ _ _ _ hx hy rx ry
        (wrapInt_range _).1 (wrapInt_range _).2 hpos b hb
      have hXY := toNat_mul_le _ _ _ hx hy hle
      refine ⟨⟨_, hcap, by omega⟩, ?_⟩
      rw [hdata _ hflat, flat_div _ i j hj, flat_mod _ i j hj]
      exact writer_element_eq _ i j hF
  · intro p a1 a2 env hok hx hy
    have rx := (atoi_range a1).2
    have ry := (atoi_range a2).2
    have hmain := weak_main_ok p a1 a2 env hok
    constructor
    · intro hnm
      have hmul : intMul (atoi a1) (atoi a2) = atoi a1 * atoi a2 :=
        wrapInt_of_fits _ (le_trans (by unfold INT_MIN; omega) (Int.mul_nonneg hx hy)) hnm
      obtain ⟨b, hrun, _⟩ := fillAndPut_ok
        ⟨toSizeT (intMul env.dims0 (atoi a1)), toSizeT (intMul env.dims1 (atoi a2)),
          toSizeT (intMul env.coords0 (atoi a1)), toSizeT (intMul env.coords1 (atoi a2)),
          toSizeT (atoi a1), toSizeT (atoi a2)⟩
        (writer_weak_scaling.element
          ⟨toSizeT (intMul env.dims0 (atoi a1)), toSizeT (intMul env.dims1 (atoi a2)),
          toSizeT (intMul env.coords0 (atoi a1)), toSizeT (intMul env.coords1 (atoi a2)),
          toSizeT (atoi a1), toSizeT (atoi a2)⟩)
        (intMul (atoi a1) (atoi a2)) (atoi a1) (atoi a2) hx hy rx ry
        (by rw [hmul]) (by rw [hmul]; exact hnm)
      rw [hmain, hrun]
      exact ⟨b, rfl, rfl⟩
    · refine ⟨_, by rw [hmain, fillAndPut_defined], ?_⟩
      intro b hb i j hi hj hF
      simp only [toSizeT_of_nonneg _ hx rx, toSizeT_of_nonneg _ hy ry] at hi hj ⊢
      have hflat := flat_lt _ _ i j hi hj
      have hpos : 0 < atoi a1 * atoi a2 := Int.mul_pos (by omega) (by omega)
      rw [hmain] at hb
      obtain ⟨hle, hcap, _, hdata⟩ := fillAndPut_buffer _ _ _ _ _ hx hy rx ry
        (wrapInt_range _).1 (wrapInt_range _).2 hpos b hb
      have hXY := toNat_mul_le _ _ _ hx hy hle
      have hisz : i < SIZE_MOD := by
        unfold INT_MAX at rx
        unfold SIZE_MOD
        omega
      refine ⟨⟨_, hcap, by omega⟩, ?_⟩
      rw [hdata _ hflat, flat_div _ i j hj, flat_mod _ i j hj]
      exact weak_element_eq _ i j hisz hF

/-- Witness for C3: `writer 4 2 2 4 0 4` (global shape (4,4), start (2,0), count
(2,4)) stores 8 at local (0,0), and `writer_weak_scaling 3 3` at coordinate (1,0)
of the grid (2,2) stores 18 at local (0,0). -/
theorem writer_buffer_contents_witness :
    (∃ b, (writer.main ["writer", "4", "2", "2", "4", "0", "4"] ⟨0, 0, 0, 0⟩).buffer = some b ∧
      (writer.main ["writer", "4", "2", "2", "4", "0", "4"] ⟨0, 0, 0, 0⟩).defined
        = some ⟨4, 4, 2, 0, 2, 4⟩ ∧ b.data 0 = 8) ∧
    (∃ b, (writer_weak_scaling.main ["writer", "3", "3"]
        ⟨0, 0, 0, 0, 0, 0, 0, 0, 0, 0, 2, 2, 1, 0⟩).buffer = some b ∧
      (writer_weak_scaling.main ["writer", "3", "3"]
        ⟨0, 0, 0, 0, 0, 0, 0, 0, 0, 0, 2, 2, 1, 0⟩).defined = some ⟨6, 6, 3, 0, 3, 3⟩ ∧
      b.data 0 = 18) := by
  constructor
  · obtain ⟨hex, v, hdef, h⟩ := writer_buffer_contents.1 "writer" "4" "2" "2" "4" "0" "4"
      ⟨0, 0, 0, 0⟩ (by decide) (by decide) (by decide)
    obtain ⟨b, hb, _⟩ := hex (by decide) (by decide)
    have hd : (writer.main ["writer", "4", "2", "2", "4", "0", "4"] ⟨0, 0, 0, 0⟩).defined
        = some ⟨4, 4, 2, 0, 2, 4⟩ := by decide
    rw [hd] at hdef
    have hv : v = ⟨4, 4, 2, 0, 2, 4⟩ := (Option.some.inj hdef).symm
    subst hv
    exact ⟨b, hb, hd, (h b hb 0 0 (by decide) (by decide) (by decide)).2⟩
  · obtain ⟨hex, v, hdef, h⟩ := writer_buffer_contents.2 "writer" "3" "3"
      ⟨0, 0, 0, 0, 0, 0, 0, 0, 0, 0, 2, 2, 1, 0⟩ (by decide) (by decide) (by decide)
    obtain ⟨b, hb, _⟩ := hex (by decide)
    have hd : (writer_weak_scaling.main ["writer", "3", "3"]
        ⟨0, 0, 0, 0, 0, 0, 0, 0, 0, 0, 2, 2, 1, 0⟩).defined
        = some ⟨6, 6, 3, 0, 3, 3⟩ := by decide
    rw [hd] at hdef
    have hv : v = ⟨6, 6, 3, 0, 3, 3⟩ := (Option.some.inj hdef).symm
    subst hv
    exact ⟨b, hb, hd, (h b hb 0 0 (by decide) (by decide) (by decide)).2⟩

/-- C10. Explicit-window writer fills its buffer in bounds: the block is
allocated with `nelements = xsize * ysize` elements, and for every input with
`0 <= xcount <= xsize` and `0 <= ycount <= ysize` whose product `xsize * ysize`
fits the type `int`, the run reaches its end without a fault, every flat index
`i * ycount + j` of the fill loop is stored to and lies below `nelements`, and
each index below `xcount * ycount` is stored to exactly once. -/
theorem writer_fill_in_bounds (p a1 a2 a3 a4 a5 a6 : String) (env : WriterEnv)
    (hok : env.succeeds)
    (hx0 : 0 ≤ atoi a3) (hx : atoi a3 ≤ atoi a1) (hy0 : 0 ≤ atoi a6) (hy : atoi a6 ≤ atoi a4)
    (hnm : atoi a1 * atoi a4 ≤ INT_MAX) :
    ∃ v b, writer.main [p, a1, a2, a3, a4, a5, a6] env = ⟨some v, some b, .finished⟩ ∧
      b.capacity = some (atoi a1 * atoi a4).toNat ∧
      b.log = List.range (atoi a3 * atoi a6).toNat ∧
      (∀ k ∈ b.log, k < (atoi a1 * atoi a4).toNat) ∧
      (∀ i j : Nat, (i : Int) < atoi a3 → (j : Int) < atoi a6 →
        i * (atoi a6).toNat + j ∈ b.log ∧
        i * (atoi a6).toNat + j < (atoi a1 * atoi a4).toNat) ∧
      (∀ k, k < (atoi a3 * atoi a6).toNat → b.log.count k = 1) := by
  have rx := (atoi_range a3).2
  have ry := (atoi_range a6).2
  have hn : atoi a3 * atoi a6 ≤ atoi a1 * atoi a4 :=
    Int.mul_le_mul hx hy hy0 (le_trans hx0 hx)
  have hp0 : 0 ≤ atoi a3 * atoi a6 := Int.mul_nonneg hx0 hy0
  have hmul : intMul (atoi a1) (atoi a4) = atoi a1 * atoi a4 :=
    wrapInt_of_fits _ (le_trans (by unfold INT_MIN; omega) (le_trans hp0 hn)) hnm
  obtain ⟨b, hrun, hcap, hlog, _⟩ := fillAndPut_ok
    ⟨toSizeT (atoi a1), toSizeT (atoi a4), toSizeT (atoi a2), toSizeT (atoi a5),
      toSizeT (atoi a3), toSizeT (atoi a6)⟩
    (writer.element ⟨atoi a1, atoi a2, atoi a3, atoi a4, atoi a5, atoi a6,
      intMul (atoi a1) (atoi a4)⟩)
    (intMul (atoi a1) (atoi a4)) (atoi a3) (atoi a6) hx0 hy0 rx ry
    (by rw [hmul]; exact hn) (by rw [hmul]; exact hnm)
  rw [hmul] at hcap
  have hprod : (atoi a3).toNat * (atoi a6).toNat = (atoi a3 * atoi a6).toNat := by
    zify
    rw [Int.toNat_of_nonneg hx0, Int.toNat_of_nonneg hy0, Int.toNat_of_nonneg hp0]
  rw [hprod] at hlog
  have hle : (atoi a3 * atoi a6).toNat ≤ (atoi a1 * atoi a4).toNat := by
    zify
    rw [Int.toNat_of_nonneg hp0, Int.toNat_of_nonneg (le_trans hp0 hn)]
    exact hn
  refine ⟨_, b, by rw [writer_main_ok p a1 a2 a3 a4 a5 a6 env hok]; exact hrun, hcap, hlog,
    ?_, ?_, ?_⟩
  · intro k hk
    rw [hlog, List.mem_range] at hk
    omega
  · intro i j hi hj
    have hflat := flat_lt (atoi a3).toNat (atoi a6).toNat i j (by omega) (by omega)
    rw [hprod] at hflat
    exact ⟨by rw [hlog, List.mem_range]; exact hflat, by omega⟩
  · intro k hk
    rw [hlog]
    exact List.count_eq_one_of_mem (List.nodup_range _) (List.mem_range.2 hk)

/-- Witness for C10: `writer 4 2 2 4 0 4`. -/
theorem writer_fill_in_bounds_witness :
    ∃ v b, writer.main ["writer", "4", "2", "2", "4", "0", "4"] ⟨0, 0, 0, 0⟩
        = ⟨some v, some b, .finished⟩ ∧
      b.capacity = some 16 ∧
      b.log = List.range 8 ∧
      (∀ k ∈ b.log, k < 16) ∧
      (∀ i j : Nat, (i : Int) < 2 → (j : Int) < 4 → i * 4 + j ∈ b.log ∧ i * 4 + j < 16) ∧
      (∀ k, k < 8 → b.log.count k = 1) :=
  writer_fill_in_bounds "writer" "4" "2" "2" "4" "0" "4" ⟨0, 0, 0, 0⟩ (by decide)
    (by decide) (by decide) (by decide) (by decide) (by decide)

end Adios2C
